import Mathlib

/-!
Verification of the StarryPy3k binary codec framework (`data_parser.py`).

Modelling conventions (shallow embedding):
* A byte stream is a `List Nat` of byte values; `stream.read(n)` returns up to
  `n` bytes (`List.take`/`List.drop`), exactly like Python's `BufferedReader`.
* Python `int` is `Int`/`Nat`; a Python `float` object is identified by the
  bit pattern it was unpacked from (`Val.float32` / `Val.float64` carry the
  raw big-endian bits; no float arithmetic occurs anywhere in the source).
* Python `str` is a list of unicode code points; `bytes` is a list of bytes.
* Fallible operations return `Except PErr`; `PErr.diag` records the context
  dictionary that `Struct.parse_stream` / `Struct.build` print when a field
  fails ("Context at time of failure: ...").
* Codec `build` methods are modelled on the value shapes the source actually
  handles (e.g. the integer codecs on `int` inputs); feeding a codec a value
  of a type for which Python would raise is modelled as `PErr.typeErr`.
-/

namespace StarryPy

/-- A dictionary key produced by `StarString.parse`: decoded text on valid
UTF-8, raw bytes otherwise. -/
inductive VKey where
  | s (cps : List Nat)
  | b (bs : List Nat)
deriving DecidableEq, Repr

/-- A decoded Python value. Floats are identified by the raw bits they were
unpacked from (width-tagged); `ref i` is a reference to the `i`-th context
dictionary in the heap; `record` is a plain `str`-keyed dictionary used as
input to `Struct.build`. -/
inductive Val where
  | none
  | bool (b : Bool)
  | int (n : Int)
  | float32 (bits : Nat)
  | float64 (bits : Nat)
  | str (cps : List Nat)
  | bytes (bs : List Nat)
  | tuple (vs : List Val)
  | vlist (vs : List Val)
  | vdict (entries : List (VKey × Val))
  | ref (i : Nat)
  | record (d : List (String × Val))

/-- A context dictionary: insertion-ordered mapping from field names to
values (Python 3 `dict` / `OrderedDict`). -/
abbrev Dict := List (String × Val)

/-- Decode/encode failures. -/
inductive PErr where
  | structuralErr
  | overflowErr
  | typeErr
  | encodeErr
  | notImpl
  | fuelOut
  | diag (ctx : Dict) (e : PErr)

/-- `VKey` as the `Val` that `StarString.parse` hands back. -/
def VKey.toVal : VKey → Val
  | .s cps => .str cps
  | .b bs => .bytes bs

/-! ## Byte and Flag -/

/-- `Byte._parse`: `int.from_bytes(stream.read(1), "big")`.  On an exhausted
stream `read(1)` is `b""` and `int.from_bytes(b"")` is `0`. -/
def Byte.parse : List Nat → Nat × List Nat
  | [] => (0, [])
  | b :: rest => (b, rest)

/-- `Byte._build`: `obj.to_bytes(1, "big")`; raises `OverflowError` outside
`[0, 256)`. -/
def Byte.build (obj : Int) : Except PErr (List Nat) :=
  if 0 ≤ obj ∧ obj < 256 then .ok [obj.toNat] else .error .overflowErr

/-- `Flag._parse`: `bool(stream.read(1))` — any non-empty read (even `0x00`)
is truthy; only an exhausted stream gives `b""`, which is falsy. -/
def Flag.parse : List Nat → Bool × List Nat
  | [] => (false, [])
  | _ :: rest => (true, rest)

/-- `Flag._build`: `struct.pack(">?", obj)` writes `0x01`/`0x00`. -/
def Flag.build (obj : Bool) : List Nat :=
  [if obj then 1 else 0]

/-! ## VLQ -/

/-- The accumulation loop of `VLQ._parse`: read a byte, shift the value in,
stop on a clear high bit; an exhausted stream (`ord(b"")` raising `TypeError`)
breaks out of the loop returning the value accumulated so far. -/
def VLQ.parseAux : List Nat → Nat → Nat × List Nat
  | [], value => (value, [])
  | b :: rest, value =>
    let value := (value <<< 7) ||| (b &&& 0x7f)
    if b &&& 0x80 = 0 then (value, rest) else VLQ.parseAux rest value

/-- `VLQ._parse`. -/
def VLQ.parse (s : List Nat) : Nat × List Nat :=
  VLQ.parseAux s 0

/-- The `while value > 0` loop of `VLQ._build`, inserting each 7-bit group at
the front of the result.  The extra first argument is a step bound; the loop
runs at most `value` times, so calling it with fuel `value` is exact. -/
def VLQ.buildLoop : Nat → Nat → List Nat → List Nat
  | 0, _, result => result
  | fuel + 1, value, result =>
    if value > 0 then
      let byte := value &&& 0x7f
      let value2 := value >>> 7
      let byte2 := if value2 ≠ 0 then byte ||| 0x80 else byte
      VLQ.buildLoop fuel value2 (byte2 :: result)
    else result

/-- `result[0] |= 0x80` on a byte list. -/
def fixFirst : List Nat → List Nat
  | [] => []
  | b :: rest => (b ||| 0x80) :: rest

/-- `result[-1] ^= 0x80` on a byte list. -/
def fixLast : List Nat → List Nat
  | [] => []
  | [b] => [b ^^^ 0x80]
  | b :: rest => b :: fixLast rest

/-- `VLQ._build`: zero encodes to `b"\x00"`; otherwise emit base-128 groups
most-significant first, then set the high bit of the first byte and clear the
high bit of the last byte.  A negative input skips the loop entirely and
yields `b""`, exactly as the Python `while value > 0` does. -/
def VLQ.build (obj : Int) : List Nat :=
  if obj = 0 then [0x00]
  else
    let result := VLQ.buildLoop obj.toNat obj.toNat []
    if result.length > 1 then fixLast (fixFirst result) else result

/-! ## SignedVLQ -/

/-- `SignedVLQ._parse`: decode an unsigned VLQ and undo the zigzag mapping. -/
def SignedVLQ.parse (s : List Nat) : Int × List Nat :=
  let p := VLQ.parse s
  if p.1 &&& 1 = 0 then ((p.1 >>> 1 : Nat), p.2)
  else (-(((p.1 >>> 1 : Nat) : Int) + 1), p.2)

/-- `SignedVLQ._build`: `value = abs(obj * 2)`, minus one when `obj < 0`,
then the unsigned VLQ encoding. -/
def SignedVLQ.build (obj : Int) : List Nat :=
  let value : Int := (obj * 2).natAbs
  let value := if obj < 0 then value - 1 else value
  VLQ.build value

/-! ## Fixed-width big-endian codecs -/

/-- `k` big-endian bytes of `n` (the byte string `struct.pack` produces for
an in-range value). -/
def toBytesBE : Nat → Nat → List Nat
  | 0, _ => []
  | k + 1, n => toBytesBE k (n / 256) ++ [n % 256]

/-- `UBInt16._parse`: `struct.unpack(">H", stream.read(2))[0]`;
`struct.unpack` raises `struct.error` when fewer than 2 bytes remain. -/
def UBInt16.parse : List Nat → Except PErr (Nat × List Nat)
  | b0 :: b1 :: rest => .ok (b0 * 256 + b1, rest)
  | _ => .error .structuralErr

/-- `UBInt16._build`: `struct.pack(">H", obj)`; out-of-range raises. -/
def UBInt16.build (obj : Int) : Except PErr (List Nat) :=
  if 0 ≤ obj ∧ obj < 65536 then .ok (toBytesBE 2 obj.toNat) else .error .structuralErr

/-- `SBInt16._parse`: `struct.unpack(">h", stream.read(2))[0]`. -/
def SBInt16.parse : List Nat → Except PErr (Int × List Nat)
  | b0 :: b1 :: rest =>
    let v := b0 * 256 + b1
    .ok (if v < 32768 then (v : Int) else (v : Int) - 65536, rest)
  | _ => .error .structuralErr

/-- `SBInt16._build`: `struct.pack(">h", obj)`. -/
def SBInt16.build (obj : Int) : Except PErr (List Nat) :=
  if -32768 ≤ obj ∧ obj < 32768 then .ok (toBytesBE 2 (obj % 65536).toNat)
  else .error .structuralErr

/-- `UBInt32._parse`: `struct.unpack(">L", stream.read(4))[0]`. -/
def UBInt32.parse : List Nat → Except PErr (Nat × List Nat)
  | b0 :: b1 :: b2 :: b3 :: rest => .ok (((b0 * 256 + b1) * 256 + b2) * 256 + b3, rest)
  | _ => .error .structuralErr

/-- `UBInt32._build`: `struct.pack(">L", obj)`. -/
def UBInt32.build (obj : Int) : Except PErr (List Nat) :=
  if 0 ≤ obj ∧ obj < 4294967296 then .ok (toBytesBE 4 obj.toNat) else .error .structuralErr

/-- `SBInt32._parse`: `struct.unpack(">l", stream.read(4))[0]`. -/
def SBInt32.parse : List Nat → Except PErr (Int × List Nat)
  | b0 :: b1 :: b2 :: b3 :: rest =>
    let v := ((b0 * 256 + b1) * 256 + b2) * 256 + b3
    .ok (if v < 2147483648 then (v : Int) else (v : Int) - 4294967296, rest)
  | _ => .error .structuralErr

/-- `SBInt32._build`: `struct.pack(">l", obj)`. -/
def SBInt32.build (obj : Int) : Except PErr (List Nat) :=
  if -2147483648 ≤ obj ∧ obj < 2147483648 then .ok (toBytesBE 4 (obj % 4294967296).toNat)
  else .error .structuralErr

/-- `BFloat32._parse`: `struct.unpack(">f", stream.read(4))[0]`, the float
identified by its 32 raw bits. -/
def BFloat32.parse : List Nat → Except PErr (Nat × List Nat)
  | b0 :: b1 :: b2 :: b3 :: rest => .ok (((b0 * 256 + b1) * 256 + b2) * 256 + b3, rest)
  | _ => .error .structuralErr

/-- `BDouble._parse`: `struct.unpack(">d", stream.read(8))` — note the source
omits the `[0]` every sibling codec has, so the result is the one-element
tuple `struct.unpack` returns, not the float inside it. -/
def BDouble.parse : List Nat → Except PErr (Val × List Nat)
  | b0 :: b1 :: b2 :: b3 :: b4 :: b5 :: b6 :: b7 :: rest =>
    .ok (.tuple [.float64 (((((((b0 * 256 + b1) * 256 + b2) * 256 + b3) * 256 + b4) * 256
      + b5) * 256 + b6) * 256 + b7)], rest)
  | _ => .error .structuralErr

/-! ## Length-prefixed containers and UTF-8 -/

/-- `StarByteArray._parse`: a VLQ length prefix, then `stream.read(length)`,
which returns whatever bytes are available (possibly fewer). -/
def StarByteArray.parse (s : List Nat) : List Nat × List Nat :=
  let p := VLQ.parse s
  (p.2.take p.1, p.2.drop p.1)

/-- `StarByteArray._build`: `VLQ.build(len(obj)) + obj`. -/
def StarByteArray.build (obj : List Nat) : List Nat :=
  VLQ.build (obj.length : Int) ++ obj

/-- The UTF-8 encoding of one code point (by the standard range dispatch). -/
def utf8EncodeChar (c : Nat) : List Nat :=
  if c < 0x80 then [c]
  else if c < 0x800 then [0xC0 + c / 64, 0x80 + c % 64]
  else if c < 0x10000 then [0xE0 + c / 4096, 0x80 + c / 64 % 64, 0x80 + c % 64]
  else [0xF0 + c / 0x40000, 0x80 + c / 4096 % 64, 0x80 + c / 64 % 64, 0x80 + c % 64]

/-- A unicode scalar value: what a Python `str.encode("utf-8")` accepts
(code points below 0x110000 that are not surrogates). -/
def isScalar (c : Nat) : Bool :=
  c < 0x110000 && (c < 0xD800 || 0xE000 ≤ c)

/-- `str.encode("utf-8")` on a list of code points. -/
def utf8Encode (s : List Nat) : List Nat :=
  (s.map utf8EncodeChar).flatten

mutual

/-- Strict UTF-8 decoding (Python's `bytes.decode("utf-8")`): rejects stray
continuation bytes, overlong forms, surrogates, values above 0x10FFFF and
truncated sequences.  The lead byte is dispatched here; the continuation
bytes of 2-, 3- and 4-byte sequences are consumed by `utf8Dec2`, `utf8Dec3`
and `utf8Dec4`. -/
def utf8DecodeAux : List Nat → List Nat → Option (List Nat)
  | [], acc => some acc.reverse
  | b :: rest, acc =>
    if b < 0x80 then utf8DecodeAux rest (b :: acc)
    else if b < 0xC2 then none
    else if b < 0xE0 then utf8Dec2 b rest acc
    else if b < 0xF0 then utf8Dec3 b rest acc
    else if b < 0xF5 then utf8Dec4 b rest acc
    else none
termination_by structural l _ => l

/-- One continuation byte after a 2-byte lead. -/
def utf8Dec2 : Nat → List Nat → List Nat → Option (List Nat)
  | _, [], _ => none
  | b, b1 :: r, acc =>
    if b1 < 0x80 || 0xC0 ≤ b1 then none
    else utf8DecodeAux r (((b - 0xC0) * 64 + (b1 - 0x80)) :: acc)
termination_by structural _ l _ => l

/-- Two continuation bytes after a 3-byte lead; rejects values below 0x800
(overlong) and the surrogate range. -/
def utf8Dec3 : Nat → List Nat → List Nat → Option (List Nat)
  | _, [], _ => none
  | _, [_], _ => none
  | b, b1 :: b2 :: r, acc =>
    if b1 < 0x80 || 0xC0 ≤ b1 || b2 < 0x80 || 0xC0 ≤ b2 then none
    else
      let c := (b - 0xE0) * 4096 + (b1 - 0x80) * 64 + (b2 - 0x80)
      if c < 0x800 || (0xD800 ≤ c && c < 0xE000) then none
      else utf8DecodeAux r (c :: acc)
termination_by structural _ l _ => l

/-- Three continuation bytes after a 4-byte lead; rejects values below
0x10000 (overlong) and above 0x10FFFF. -/
def utf8Dec4 : Nat → List Nat → List Nat → Option (List Nat)
  | _, [], _ => none
  | _, [_], _ => none
  | _, [_, _], _ => none
  | b, b1 :: b2 :: b3 :: r, acc =>
    if b1 < 0x80 || 0xC0 ≤ b1 || b2 < 0x80 || 0xC0 ≤ b2 || b3 < 0x80 || 0xC0 ≤ b3 then none
    else
      let c := (b - 0xF0) * 0x40000 + (b1 - 0x80) * 4096 + (b2 - 0x80) * 64 + (b3 - 0x80)
      if c < 0x10000 || 0x110000 ≤ c then none
      else utf8DecodeAux r (c :: acc)
termination_by structural _ l _ => l

end

/-- `bytes.decode("utf-8")`: `some` code points, or `none` on
`UnicodeDecodeError`. -/
def utf8Decode (bs : List Nat) : Option (List Nat) :=
  utf8DecodeAux bs []

/-- `StarString._parse`: a `StarByteArray`, decoded as UTF-8, falling back to
the raw bytes on `UnicodeDecodeError`. -/
def StarString.parse (s : List Nat) : VKey × List Nat :=
  let p := StarByteArray.parse s
  match utf8Decode p.1 with
  | some cps => (.s cps, p.2)
  | none => (.b p.1, p.2)

/-- `StarString._build`: `StarByteArray.build(obj.encode("utf-8"))`; encoding
raises `UnicodeEncodeError` on a lone surrogate. -/
def StarString.build (cps : List Nat) : Except PErr (List Nat) :=
  if cps.all isScalar then .ok (StarByteArray.build (utf8Encode cps))
  else .error .encodeErr

/-! ## Variant -/

/-- Update-or-append assignment `c[key] = value` on a Python dict modelled as
an insertion-ordered association list. -/
def dictSetV (d : List (VKey × Val)) (k : VKey) (v : Val) : List (VKey × Val) :=
  if d.any (fun p => p.1 == k) then d.map (fun p => if p.1 == k then (k, v) else p)
  else d ++ [(k, v)]

mutual

/-- `Variant._parse`: read one tag byte and dispatch.  A tag outside 1–7
falls off the end of the `if`/`elif` chain, so the Python method returns
`None` with no error.  The `fuel` argument bounds the recursion depth and
loop counts; with enough fuel the behaviour is exactly the source's. -/
def variantParse : Nat → List Nat → Except PErr (Val × List Nat)
  | 0, _ => .error .fuelOut
  | fuel + 1, s =>
    let (x, s1) := Byte.parse s
    if x = 1 then .ok (.none, s1)
    else if x = 2 then
      match BDouble.parse s1 with
      | .ok (v, s2) => .ok (v, s2)
      | .error e => .error e
    else if x = 3 then
      let (b, s2) := Flag.parse s1
      .ok (.bool b, s2)
    else if x = 4 then
      let (i, s2) := SignedVLQ.parse s1
      .ok (.int i, s2)
    else if x = 5 then
      let (k, s2) := StarString.parse s1
      .ok (k.toVal, s2)
    else if x = 6 then
      let (l, s2) := VLQ.parse s1
      match variantList fuel l s2 with
      | .ok (vs, s3) => .ok (.vlist vs, s3)
      | .error e => .error e
    else if x = 7 then
      let (l, s2) := VLQ.parse s1
      match variantDict fuel l [] s2 with
      | .ok (entries, s3) => .ok (.vdict entries, s3)
      | .error e => .error e
    else .ok (.none, s1)

/-- The element loop of `VariantVariant._parse`: `l` recursive `Variant`
parses collected into a list. -/
def variantList : Nat → Nat → List Nat → Except PErr (List Val × List Nat)
  | 0, _, _ => .error .fuelOut
  | _ + 1, 0, s => .ok ([], s)
  | fuel + 1, n + 1, s =>
    match variantParse fuel s with
    | .error e => .error e
    | .ok (v, s1) =>
      match variantList fuel n s1 with
      | .error e => .error e
      | .ok (vs, s2) => .ok (v :: vs, s2)

/-- The entry loop of `DictVariant._parse`: `l` iterations of a `StarString`
key then a recursive `Variant` value, re-decoding a bytes-typed value to
UTF-8 opportunistically, assigned into the accumulating dict. -/
def variantDict : Nat → Nat → List (VKey × Val) → List Nat →
    Except PErr (List (VKey × Val) × List Nat)
  | 0, _, _, _ => .error .fuelOut
  | _ + 1, 0, acc, s => .ok (acc, s)
  | fuel + 1, n + 1, acc, s =>
    let (key, s1) := StarString.parse s
    match variantParse fuel s1 with
    | .error e => .error e
    | .ok (v, s2) =>
      let v2 := match v with
        | .bytes bs =>
          match utf8Decode bs with
          | some cps => Val.str cps
          | none => Val.bytes bs
        | other => other
      variantDict fuel n (dictSetV acc key v2) s2

end

/-! ## The declarative Struct engine

`MetaStruct` collects the class-body codec declarations, in source order,
into `_struct_fields`; `Struct.parse_stream` runs them against one shared
mutable context dict, and `Struct.build` concatenates the per-field
encodings.  The mutable context objects live in an explicit heap of
dictionaries; a context is an index into that heap, and a composite's decode
result is `Val.ref` of its context index — the very dict that was threaded
through the call. -/

mutual
/-- A codec: either one of the leaf codecs of the source, or a composite
record with its declared `_struct_fields`. -/
inductive Codec where
  | vlq
  | svlq
  | ubint16
  | sbint16
  | ubint32
  | sbint32
  | bfloat32
  | bdouble
  | byte
  | flag
  | starByteArray
  | starString
  | variant
  | composite (fields : Fields)

/-- An ordered `_struct_fields` list of (name, codec) pairs. -/
inductive Fields where
  | fnil
  | fcons (name : String) (c : Codec) (rest : Fields)
end

/-- Append of field lists. -/
def Fields.append : Fields → Fields → Fields
  | .fnil, g => g
  | .fcons n c rest, g => .fcons n c (rest.append g)

/-- A heap of context dictionaries; `Val.ref i` points at entry `i`. -/
abbrev Heap := List Dict

/-- `ctx[name] = v` on one dict: overwrite an existing key in place, else
append at the end (Python 3 dict assignment). -/
def dictSet (d : Dict) (k : String) (v : Val) : Dict :=
  if d.any (fun p => p.1 == k) then d.map (fun p => if p.1 == k then (k, v) else p)
  else d ++ [(k, v)]

/-- `name in obj` on a dict. -/
def dictHas (d : Dict) (k : String) : Bool :=
  d.any (fun p => p.1 == k)

/-- `obj[name]` on a dict (keys are unique, so first match). -/
def dictGet (d : Dict) (k : String) : Val :=
  match d.find? (fun p => p.1 == k) with
  | some p => p.2
  | Option.none => .none

/-- Assignment `ctx[name] = v` through a heap reference. -/
def heapSet : Heap → Nat → String → Val → Heap
  | [], _, _, _ => []
  | d :: rest, 0, k, v => dictSet d k v :: rest
  | d :: rest, i + 1, k, v => d :: heapSet rest i k v

/-- Dereference a context index. -/
def heapGet (h : Heap) (i : Nat) : Dict :=
  h.getD i []

mutual
/-- `Struct.parse` / `Struct.parse_stream` with an explicit context
reference: a composite with fields runs each field codec in declared order
against the same stream and the same context (`ctx[name] = struct.parse(
stream, ctx=ctx)`), and its result is that context object; a composite with
no fields reaches the base `Struct._parse`, which raises
`NotImplementedError`.  A leaf defers to its `_parse`.  On a field failure
the enclosing composite prints the shared context and re-raises, modelled by
the `PErr.diag` wrapper; the heap travels with the error, since the mutated
context objects stay visible to the caller. -/
def parseCodec (fuel : Nat) (c : Codec) (s : List Nat) (ctx : Nat) (heap : Heap) :
    Except (PErr × Heap) (Val × List Nat × Heap) :=
  match c with
  | .vlq => .ok (.int (VLQ.parse s).1, (VLQ.parse s).2, heap)
  | .svlq => .ok (.int (SignedVLQ.parse s).1, (SignedVLQ.parse s).2, heap)
  | .ubint16 =>
    match UBInt16.parse s with
    | .ok (v, s1) => .ok (.int v, s1, heap)
    | .error e => .error (e, heap)
  | .sbint16 =>
    match SBInt16.parse s with
    | .ok (v, s1) => .ok (.int v, s1, heap)
    | .error e => .error (e, heap)
  | .ubint32 =>
    match UBInt32.parse s with
    | .ok (v, s1) => .ok (.int v, s1, heap)
    | .error e => .error (e, heap)
  | .sbint32 =>
    match SBInt32.parse s with
    | .ok (v, s1) => .ok (.int v, s1, heap)
    | .error e => .error (e, heap)
  | .bfloat32 =>
    match BFloat32.parse s with
    | .ok (v, s1) => .ok (.float32 v, s1, heap)
    | .error e => .error (e, heap)
  | .bdouble =>
    match BDouble.parse s with
    | .ok (v, s1) => .ok (v, s1, heap)
    | .error e => .error (e, heap)
  | .byte => .ok (.int (Byte.parse s).1, (Byte.parse s).2, heap)
  | .flag => .ok (.bool (Flag.parse s).1, (Flag.parse s).2, heap)
  | .starByteArray => .ok (.bytes (StarByteArray.parse s).1, (StarByteArray.parse s).2, heap)
  | .starString => .ok ((StarString.parse s).1.toVal, (StarString.parse s).2, heap)
  | .variant =>
    match variantParse fuel s with
    | .ok (v, s1) => .ok (v, s1, heap)
    | .error e => .error (e, heap)
  | .composite fs =>
    match fs with
    | .fnil => .error (.notImpl, heap)
    | .fcons _ _ _ =>
      match parseFields fuel fs s ctx heap with
      | .ok (s1, h1) => .ok (.ref ctx, s1, h1)
      | .error eh => .error eh

/-- The field loop of `Struct.parse_stream`: for each `(name, struct)` in
declared order, parse with the shared context and assign `ctx[name]`;
the first failure prints the partially filled context and re-raises. -/
def parseFields (fuel : Nat) (fs : Fields) (s : List Nat) (ctx : Nat) (heap : Heap) :
    Except (PErr × Heap) (List Nat × Heap) :=
  match fs with
  | .fnil => .ok (s, heap)
  | .fcons name c rest =>
    match parseCodec fuel c s ctx heap with
    | .error (e, h1) => .error (.diag (heapGet h1 ctx) e, h1)
    | .ok (v, s1, h1) => parseFields fuel rest s1 ctx (heapSet h1 ctx name v)
end

/-- Top-level `Struct.parse(bytes)`: normalize the input into a stream and
parse with a fresh empty context (`ctx = {}`). -/
def Struct.parse (fuel : Nat) (c : Codec) (s : List Nat) :
    Except (PErr × Heap) (Val × List Nat × Heap) :=
  parseCodec fuel c s 0 [[]]

mutual
/-- `Struct.build`: a composite with fields concatenates the per-field
encodings in declared order, encoding `obj[name]` when the key is present
and `None` otherwise; a composite with no fields reaches the base
`Struct._build` (`NotImplementedError`), as does `Variant` (decode-only
upstream).  Leaves defer to their `_build`, raising on values of a shape
the source cannot handle. -/
def buildCodec : Codec → Val → Except PErr (List Nat)
  | .vlq, .int n => .ok (VLQ.build n)
  | .svlq, .int n => .ok (SignedVLQ.build n)
  | .ubint16, .int n => UBInt16.build n
  | .sbint16, .int n => SBInt16.build n
  | .ubint32, .int n => UBInt32.build n
  | .sbint32, .int n => SBInt32.build n
  | .bfloat32, .float32 bits => .ok (toBytesBE 4 bits)
  | .bdouble, .float64 bits => .ok (toBytesBE 8 bits)
  | .byte, .int n => Byte.build n
  | .flag, .bool b => .ok (Flag.build b)
  | .starByteArray, .bytes bs => .ok (StarByteArray.build bs)
  | .starString, .str cps => StarString.build cps
  | .variant, _ => .error .notImpl
  | .composite fs, .record d =>
    match fs with
    | .fnil => .error .notImpl
    | .fcons _ _ _ => buildFields fs d
  | _, _ => .error .typeErr

/-- The field loop of `Struct.build`.  The build context dict is a fresh
`{}` that no modelled codec ever writes, so the context printed on a field
failure is empty. -/
def buildFields : Fields → Dict → Except PErr (List Nat)
  | .fnil, _ => .ok []
  | .fcons name c rest, obj =>
    match buildCodec c (if dictHas obj name then dictGet obj name else .none) with
    | .error e => .error (.diag [] e)
    | .ok bs =>
      match buildFields rest obj with
      | .error e => .error e
      | .ok bs2 => .ok (bs ++ bs2)
end

/-! ## Schema catalog (the composites the claims exercise) -/

/-- `SpawnCoordinates`: `x = BFloat32; y = BFloat32`. -/
def SpawnCoordinates : Codec :=
  .composite (.fcons "x" .bfloat32 (.fcons "y" .bfloat32 .fnil))

/-- `WorldStart` (packet type 18), fields in source order. -/
def WorldStart : Codec :=
  .composite
    (.fcons "template_data" .variant
    (.fcons "sky_data" .starByteArray
    (.fcons "weather_data" .starByteArray
    (.fcons "spawn" SpawnCoordinates
    (.fcons "respawn_in_world" .flag
    (.fcons "world_properties" .variant
    (.fcons "client_id" .ubint16
    (.fcons "local_interpolation" .flag .fnil))))))))

/-- `ConnectFailure` (packet type 3). -/
def ConnectFailure : Codec :=
  .composite (.fcons "reason" .starString .fnil)

/-- `ChatReceived` (packet type 5), fields in source order. -/
def ChatReceived : Codec :=
  .composite
    (.fcons "mode" .byte
    (.fcons "channel" .starString
    (.fcons "client_id" .ubint16
    (.fcons "name" .starString
    (.fcons "message" .starString .fnil)))))

/-- `ProtocolRequest` (packet type 9). -/
def ProtocolRequest : Codec :=
  .composite (.fcons "client_build" .ubint32 .fnil)

/-- `ProtocolResponse` (packet type 0). -/
def ProtocolResponse : Codec :=
  .composite (.fcons "server_response" .byte .fnil)

/-- `ClientDisconnectRequest` (packet type 11). -/
def ClientDisconnectRequest : Codec :=
  .composite (.fcons "request" .byte .fnil)

/-- `ServerDisconnect` (packet type 11). -/
def ServerDisconnect : Codec :=
  .composite (.fcons "reason" .starString .fnil)

/-- `PlayerWarp` (packet type 13), fields in source order. -/
def PlayerWarp : Codec :=
  .composite
    (.fcons "warp_type" .byte
    (.fcons "everything_else" .starString .fnil))

/-- `ChatSent` (packet type 15), fields in source order. -/
def ChatSent : Codec :=
  .composite
    (.fcons "message" .starString
    (.fcons "send_mode" .byte .fnil))

/-- `WorldStop` (packet type 19). -/
def WorldStop : Codec :=
  .composite (.fcons "reason" .starString .fnil)

/-- `GiveItem` (packet type 26), fields in source order. -/
def GiveItem : Codec :=
  .composite
    (.fcons "name" .starString
    (.fcons "count" .vlq
    (.fcons "variant_type" .byte
    (.fcons "description" .starString .fnil))))

/-! ## UUID, StringSet, WorldChunks -/

/-- One lowercase hex digit (the characters `0`-`9`, `a`-`f`) as a byte. -/
def hexChar (n : Nat) : Nat :=
  if n < 10 then 48 + n else 87 + n

/-- `binascii.hexlify`: each byte becomes two lowercase hex characters. -/
def hexlify (bs : List Nat) : List Nat :=
  (bs.map (fun b => [hexChar (b / 16), hexChar (b % 16)])).flatten

/-- `UUID._parse`: `binascii.hexlify(stream.read(16))` — the 32 hex
characters of (up to) 16 raw bytes. -/
def UUID.parse (s : List Nat) : List Nat × List Nat :=
  (hexlify (s.take 16), s.drop 16)

/-- `UUID._build`: a truthy (non-empty) value is emitted as the presence
flag `Flag.build(True)` followed by the value's own bytes; a falsy value as
`Flag.build(False)` alone.  Note this is not the inverse of `UUID._parse`. -/
def UUID.build (obj : List Nat) : List Nat :=
  if obj ≠ [] then Flag.build true ++ obj else Flag.build false

/-- The element loop of `StringSet._parse`: `range(l)` iterations, each a
`StarString.parse` whose raw-bytes fallback is offered one more (always
failing) `decode("utf-8")` attempt. -/
def StringSet.parseLoop : Nat → List Nat → List Val → List Val × List Nat
  | 0, s, acc => (acc.reverse, s)
  | n + 1, s, acc =>
    let k := StarString.parse s
    let v := match k.1 with
      | .s cps => Val.str cps
      | .b bs =>
        match utf8Decode bs with
        | some cps => Val.str cps
        | Option.none => Val.bytes bs
    StringSet.parseLoop n k.2 (v :: acc)

/-- `StringSet._parse`: a VLQ count, then that many `StarString`s. -/
def StringSet.parse (s : List Nat) : List Val × List Nat :=
  let p := VLQ.parse s
  StringSet.parseLoop p.1 p.2 []

/-- `StringSet` defines no `_build`; `Struct.build` falls through to the
base `Struct._build`, which raises `NotImplementedError`. -/
def StringSet.build (_ : Val) : Except PErr (List Nat) :=
  .error .notImpl

/-- The record loop in `WorldChunks._parse`: each of `range(l)` iterations
reads a VLQ-prefixed chunk, a separator byte and a second VLQ-prefixed
chunk, appending the 6-tuple `(n, v1, c1, sep, v2, c2)`. -/
def WorldChunks.parseLoop : Nat → Nat → List Nat → List Val → List Val × List Nat
  | 0, _, s, acc => (acc.reverse, s)
  | k + 1, n, s, acc =>
    let p1 := VLQ.parse s
    let c1 := p1.2.take p1.1
    let s2 := p1.2.drop p1.1
    let sep := Byte.parse s2
    let p2 := VLQ.parse sep.2
    let c2 := p2.2.take p2.1
    let s3 := p2.2.drop p2.1
    WorldChunks.parseLoop k (n + 1) s3
      (Val.tuple [.int n, .int p1.1, .bytes c1, .int sep.1, .int p2.1, .bytes c2] :: acc)

/-- `WorldChunks._parse`: a VLQ count and the record loop, returned as the
dict `{"length": l, "content": [...]}`. -/
def WorldChunks.parse (s : List Nat) : Val × List Nat :=
  let p := VLQ.parse s
  let c := WorldChunks.parseLoop p.1 0 p.2 []
  (.record [("length", .int p.1), ("content", .vlist c.1)], c.2)

/-- `WorldChunks` defines no `_build`; `Struct.build` falls through to the
base `Struct._build`, which raises `NotImplementedError`. -/
def WorldChunks.build (_ : Val) : Except PErr (List Nat) :=
  .error .notImpl

/-! ## BasePacket -/

/-- The payload handed to `BasePacket._build`: raw bytes, or text that the
method UTF-8-encodes itself. -/
inductive PacketData where
  | raw (bs : List Nat)
  | text (cps : List Nat)

/-- `len(obj["data"])`: byte count of bytes, character count of text. -/
def PacketData.len : PacketData → Nat
  | .raw bs => bs.length
  | .text cps => cps.length

/-- `BasePacket._build`: one ID byte, the `SignedVLQ` of `len(data)` —
replaced by `-abs(len(data))` when `ctx["compressed"]` is present and truthy
— then the payload bytes, UTF-8-encoding a text payload first. -/
def BasePacket.build (id : Nat) (data : PacketData) (compressed : Bool) :
    Except PErr (List Nat) :=
  (Byte.build (id : Int)).bind fun idb =>
    let v0 : Int := (data.len : Int)
    let v : Int := if compressed then -(v0.natAbs : Int) else v0
    match data with
    | .raw bs => .ok (idb ++ SignedVLQ.build v ++ bs)
    | .text cps =>
      if cps.all isScalar then .ok (idb ++ SignedVLQ.build v ++ utf8Encode cps)
      else .error .encodeErr

/-! ## VLQ correctness -/

/-- Base-128 digits of `v`, most significant first, with the continuation
bit `0x80` set on every byte except the most significant — the shape
`VLQ.buildLoop` leaves before the two fix-ups. -/
def rawDigits (v : Nat) : List Nat :=
  if h : v = 0 then []
  else if v < 128 then [v]
  else rawDigits (v / 128) ++ [v % 128 + 128]
termination_by v
decreasing_by
  all_goals exact Nat.div_lt_self (Nat.pos_of_ne_zero h) (by norm_num)

/-- Base-128 digits of `v`, most significant first, continuation bit set on
every byte: the non-final portion of a big-endian base-128 encoding. -/
def hiPart (v : Nat) : List Nat :=
  if h : v = 0 then []
  else hiPart (v / 128) ++ [v % 128 + 128]
termination_by v
decreasing_by
  all_goals exact Nat.div_lt_self (Nat.pos_of_ne_zero h) (by norm_num)

/-- `128 ^ (hiPart v).length`, recursively. -/
def pw (v : Nat) : Nat :=
  if h : v = 0 then 1
  else 128 * pw (v / 128)
termination_by v
decreasing_by
  all_goals exact Nat.div_lt_self (Nat.pos_of_ne_zero h) (by norm_num)

theorem and127 (x : Nat) : x &&& 127 = x % 128 :=
  Nat.and_pow_two_sub_one_eq_mod x 7

theorem shr7 (x : Nat) : x >>> 7 = x / 128 :=
  Nat.shiftRight_eq_div_pow x 7

theorem shl7 (x : Nat) : x <<< 7 = x * 128 :=
  Nat.shiftLeft_eq x 7

theorem or128 (x : Nat) (h : x < 128) : x ||| 128 = x + 128 := by
  have hb : x < 2 ^ 7 := by simpa using h
  have h2 := Nat.mul_add_lt_is_or hb 1
  have h3 : (2 : Nat) ^ 7 * 1 = 128 := by norm_num
  rw [h3] at h2
  rw [Nat.lor_comm, ← h2]
  omega

theorem xor128 (x : Nat) (h : x < 128) : (x + 128) ^^^ 128 = x := by
  have h2 : ∀ y : Fin 128, ((y : Nat) + 128) ^^^ 128 = y := by decide
  exact h2 ⟨x, h⟩

theorem and128_lo (x : Nat) (h : x < 128) : x &&& 128 = 0 := by
  have h2 : ∀ y : Fin 128, (y : Nat) &&& 128 = 0 := by decide
  exact h2 ⟨x, h⟩

theorem and128_hi (x : Nat) (h : x < 128) : (x + 128) &&& 128 = 128 := by
  have h2 : ∀ y : Fin 128, ((y : Nat) + 128) &&& 128 = 128 := by decide
  exact h2 ⟨x, h⟩

theorem lor_mul128 (value y : Nat) (hy : y < 128) :
    (value * 128) ||| y = value * 128 + y := by
  have hb : y < 2 ^ 7 := by simpa using hy
  have h2 := Nat.mul_add_lt_is_or hb value
  have h3 : (2 : Nat) ^ 7 * value = value * 128 := by ring
  rw [h3] at h2
  exact h2.symm

/-- One `parseAux` step on a continuation byte (high bit set). -/
theorem parseAux_step_hi (y : Nat) (hy : y < 128) (rest : List Nat) (value : Nat) :
    VLQ.parseAux ((y + 128) :: rest) value = VLQ.parseAux rest (value * 128 + y) := by
  rw [VLQ.parseAux]
  simp only [shl7, and127, and128_hi y hy]
  rw [if_neg (by norm_num)]
  congr 1
  have hmod : (y + 128) % 128 = y := by omega
  rw [hmod, lor_mul128 value y hy]

/-- One `parseAux` step on a final byte (high bit clear): the loop stops. -/
theorem parseAux_step_lo (y : Nat) (hy : y < 128) (rest : List Nat) (value : Nat) :
    VLQ.parseAux (y :: rest) value = (value * 128 + y, rest) := by
  rw [VLQ.parseAux]
  simp only [shl7, and127, and128_lo y hy, if_true]
  have hmod : y % 128 = y := by omega
  rw [hmod, lor_mul128 value y hy]

theorem rawDigits_zero : rawDigits 0 = [] := by
  rw [rawDigits]
  simp

theorem rawDigits_small (v : Nat) (h0 : v ≠ 0) (hs : v < 128) : rawDigits v = [v] := by
  rw [rawDigits]
  simp [h0, hs]

theorem rawDigits_large (v : Nat) (hs : 128 ≤ v) :
    rawDigits v = rawDigits (v / 128) ++ [v % 128 + 128] := by
  rw [rawDigits]
  simp [show v ≠ 0 by omega, show ¬ v < 128 by omega]

theorem buildLoop_zero_val (fuel : Nat) (acc : List Nat) :
    VLQ.buildLoop fuel 0 acc = acc := by
  cases fuel <;> rw [VLQ.buildLoop] <;> simp

/-- The build loop, invoked with enough fuel, produces the raw digit list in
front of the accumulator. -/
theorem buildLoop_eq : ∀ fuel v : Nat, v ≤ fuel → ∀ acc : List Nat,
    VLQ.buildLoop fuel v acc = rawDigits v ++ acc := by
  intro fuel
  induction fuel with
  | zero =>
    intro v hv acc
    have h0 : v = 0 := Nat.le_zero.mp hv
    subst h0
    rw [VLQ.buildLoop, rawDigits_zero]
    simp
  | succ fuel ih =>
    intro v hv acc
    rcases Nat.eq_zero_or_pos v with h0 | hpos
    · subst h0
      rw [VLQ.buildLoop, rawDigits_zero]
      simp
    · rw [VLQ.buildLoop, if_pos hpos]
      simp only [shr7, and127]
      by_cases hsmall : v < 128
      · rw [Nat.div_eq_of_lt hsmall]
        have hif : (if (0 : Nat) ≠ 0 then v % 128 ||| 128 else v % 128) = v % 128 := by
          simp
        rw [hif, Nat.mod_eq_of_lt hsmall, buildLoop_zero_val,
          rawDigits_small v (by omega) hsmall]
        simp
      · have h128 : 128 ≤ v := Nat.le_of_not_lt hsmall
        have hdivpos : v / 128 ≠ 0 := by
          have h1 : 1 ≤ v / 128 := (Nat.one_le_div_iff (by norm_num)).mpr h128
          omega
        have hlt : v / 128 < v := Nat.div_lt_self hpos (by norm_num)
        rw [if_pos hdivpos, or128 (v % 128) (Nat.mod_lt _ (by norm_num)),
          ih (v / 128) (by omega) ((v % 128 + 128) :: acc), rawDigits_large v h128]
        simp

theorem rawDigits_ne_nil (v : Nat) (h0 : v ≠ 0) : rawDigits v ≠ [] := by
  by_cases hs : v < 128
  · rw [rawDigits_small v h0 hs]
    simp
  · rw [rawDigits_large v (Nat.le_of_not_lt hs)]
    simp

theorem fixFirst_append (a b : List Nat) (ha : a ≠ []) :
    fixFirst (a ++ b) = fixFirst a ++ b := by
  cases a with
  | nil => exact absurd rfl ha
  | cons x rest => rw [List.cons_append, fixFirst, fixFirst, List.cons_append]

theorem fixLast_cons_cons (y z : Nat) (l : List Nat) :
    fixLast (y :: z :: l) = y :: fixLast (z :: l) := rfl

theorem fixLast_append_single (a : List Nat) (x : Nat) :
    fixLast (a ++ [x]) = a ++ [x ^^^ 128] := by
  induction a with
  | nil => rfl
  | cons y rest ih =>
    cases rest with
    | nil => rfl
    | cons z zs =>
      have h1 : (y :: z :: zs) ++ [x] = y :: z :: (zs ++ [x]) := by simp
      rw [h1, fixLast_cons_cons]
      have h2 : z :: (zs ++ [x]) = (z :: zs) ++ [x] := by simp
      rw [h2, ih]
      simp

theorem hiPart_zero : hiPart 0 = [] := by
  rw [hiPart]
  simp

theorem hiPart_pos (v : Nat) (h0 : v ≠ 0) :
    hiPart v = hiPart (v / 128) ++ [v % 128 + 128] := by
  rw [hiPart]
  simp [h0]

theorem pw_zero : pw 0 = 1 := by
  rw [pw]
  simp

theorem pw_pos_val (v : Nat) (h0 : v ≠ 0) : pw v = 128 * pw (v / 128) := by
  rw [pw]
  simp [h0]

theorem hiPart_ne_nil (v : Nat) (h0 : v ≠ 0) : hiPart v ≠ [] := by
  rw [hiPart_pos v h0]
  simp

/-- `result[0] |= 0x80` turns the raw digit list into the all-continuation
digit list. -/
theorem fixFirst_rawDigits (v : Nat) (h0 : v ≠ 0) :
    fixFirst (rawDigits v) = hiPart v := by
  induction v using Nat.strong_induction_on with
  | _ v ih =>
    by_cases hs : v < 128
    · rw [rawDigits_small v h0 hs, hiPart_pos v h0, Nat.div_eq_of_lt hs, hiPart_zero,
        Nat.mod_eq_of_lt hs, fixFirst, or128 v hs]
      simp
    · have h128 : 128 ≤ v := Nat.le_of_not_lt hs
      have hdivpos : v / 128 ≠ 0 := by
        have h1 : 1 ≤ v / 128 := (Nat.one_le_div_iff (by norm_num)).mpr h128
        omega
      have hlt : v / 128 < v := Nat.div_lt_self (Nat.pos_of_ne_zero h0) (by norm_num)
      rw [rawDigits_large v h128,
        fixFirst_append _ _ (rawDigits_ne_nil (v / 128) hdivpos),
        ih (v / 128) hlt hdivpos, hiPart_pos v h0]

/-- `VLQ._build` produces exactly the canonical big-endian base-128
encoding: continuation digits of `n / 128`, then the final digit `n % 128`
with a clear high bit. -/
theorem build_eq_hiPart (n : Nat) :
    VLQ.build (n : Int) = hiPart (n / 128) ++ [n % 128] := by
  by_cases h0 : n = 0
  · subst h0
    rw [VLQ.build]
    simp [hiPart_zero]
  · rw [VLQ.build, if_neg (by exact_mod_cast h0)]
    have htn : ((n : Int)).toNat = n := Int.toNat_natCast n
    rw [htn, buildLoop_eq n n (Nat.le_refl n) []]
    rw [List.append_nil]
    by_cases hs : n < 128
    · rw [rawDigits_small n h0 hs]
      have hl : ¬ ([n].length > 1) := by simp
      rw [if_neg hl, Nat.div_eq_of_lt hs, hiPart_zero, Nat.mod_eq_of_lt hs]
      simp
    · have h128 : 128 ≤ n := Nat.le_of_not_lt hs
      have hdivpos : n / 128 ≠ 0 := by
        have h1 : 1 ≤ n / 128 := (Nat.one_le_div_iff (by norm_num)).mpr h128
        omega
      have hlen : (rawDigits n).length > 1 := by
        rw [rawDigits_large n h128, List.length_append]
        have := rawDigits_ne_nil (n / 128) hdivpos
        have : 0 < (rawDigits (n / 128)).length := List.length_pos.mpr this
        simp
        omega
      rw [if_pos hlen, fixFirst_rawDigits n h0, hiPart_pos n h0,
        fixLast_append_single, xor128 (n % 128) (Nat.mod_lt _ (by norm_num))]

/-- Consuming the continuation digits of `v` multiplies the accumulator by
`128` per digit and adds `v`. -/
theorem parseAux_hiPart (v : Nat) : ∀ (value : Nat) (tail : List Nat),
    VLQ.parseAux (hiPart v ++ tail) value = VLQ.parseAux tail (value * pw v + v) := by
  induction v using Nat.strong_induction_on with
  | _ v ih =>
    intro value tail
    by_cases h0 : v = 0
    · subst h0
      rw [hiPart_zero, pw_zero]
      simp
    · have hlt : v / 128 < v := Nat.div_lt_self (Nat.pos_of_ne_zero h0) (by norm_num)
      rw [hiPart_pos v h0, List.append_assoc, ih (v / 128) hlt, List.singleton_append,
        parseAux_step_hi (v % 128) (Nat.mod_lt _ (by norm_num)), pw_pos_val v h0]
      congr 1
      have hdm : v / 128 * 128 + v % 128 = v := by omega
      have halg : (value * pw (v / 128) + v / 128) * 128 + v % 128
          = value * (128 * pw (v / 128)) + (v / 128 * 128 + v % 128) := by ring
      rw [halg, hdm]

/-- Round trip: parsing a built VLQ in front of any remaining bytes yields
the original number and leaves the remaining bytes untouched. -/
theorem VLQ_parse_build (n : Nat) (rest : List Nat) :
    VLQ.parse (VLQ.build (n : Int) ++ rest) = (n, rest) := by
  rw [build_eq_hiPart, List.append_assoc, VLQ.parse, parseAux_hiPart,
    List.singleton_append, parseAux_step_lo (n % 128) (Nat.mod_lt _ (by norm_num))]
  have hdm : (0 * pw (n / 128) + n / 128) * 128 + n % 128 = n := by
    have := Nat.div_add_mod n 128
    omega
  rw [hdm]

/-- The value accumulated by `parseAux` is bounded by the stream length:
each consumed byte contributes at most 7 bits. -/
theorem parseAux_fst_lt (s : List Nat) : ∀ value : Nat,
    (VLQ.parseAux s value).1 < (value + 1) * 128 ^ s.length := by
  induction s with
  | nil =>
    intro value
    rw [VLQ.parseAux]
    simp
  | cons b rest ih =>
    intro value
    rw [VLQ.parseAux]
    simp only [shl7, and127]
    have hlt : value * 128 ||| b % 128 < (value + 1) * 128 := by
      rw [lor_mul128 value (b % 128) (Nat.mod_lt _ (by norm_num))]
      have : b % 128 < 128 := Nat.mod_lt _ (by norm_num)
      nlinarith
    have hpow : (value + 1) * 128 ≤ (value + 1) * 128 ^ (rest.length + 1) := by
      have h1 : (128 : Nat) ≤ 128 ^ (rest.length + 1) := by
        calc (128 : Nat) = 128 ^ 1 := by norm_num
        _ ≤ 128 ^ (rest.length + 1) := Nat.pow_le_pow_right (by norm_num) (by omega)
      exact Nat.mul_le_mul_left _ h1
    by_cases hc : b &&& 128 = 0
    · rw [if_pos hc]
      simp only [List.length_cons]
      omega
    · rw [if_neg hc]
      have := ih (value * 128 ||| b % 128)
      have hmono : ((value * 128 ||| b % 128) + 1) * 128 ^ rest.length
          ≤ (value + 1) * 128 ^ (rest.length + 1) := by
        have h1 : (value * 128 ||| b % 128) + 1 ≤ (value + 1) * 128 := hlt
        calc ((value * 128 ||| b % 128) + 1) * 128 ^ rest.length
            ≤ (value + 1) * 128 * 128 ^ rest.length := Nat.mul_le_mul_right _ h1
        _ = (value + 1) * 128 ^ (rest.length + 1) := by ring
      simp only [List.length_cons]
      omega

/-- The digit count of `hiPart` is bounded by the exponent that bounds the
value. -/
theorem hiPart_length_le (k : Nat) : ∀ v : Nat, v < 128 ^ k → (hiPart v).length ≤ k := by
  induction k with
  | zero =>
    intro v hv
    have : v = 0 := by simpa using hv
    subst this
    rw [hiPart_zero]
    simp
  | succ k ih =>
    intro v hv
    by_cases h0 : v = 0
    · subst h0
      rw [hiPart_zero]
      simp
    · rw [hiPart_pos v h0]
      have hdiv : v / 128 < 128 ^ k := by
        rw [Nat.div_lt_iff_lt_mul (by norm_num)]
        calc v < 128 ^ (k + 1) := hv
        _ = 128 ^ k * 128 := by ring
      have := ih (v / 128) hdiv
      simp only [List.length_append, List.length_cons, List.length_nil]
      omega

/-- `VLQ.build` output length, via the canonical form. -/
theorem build_length (n : Nat) :
    (VLQ.build (n : Int)).length = (hiPart (n / 128)).length + 1 := by
  rw [build_eq_hiPart]
  simp

/-- Any fully-consumed byte list that parses to `n` is at least as long as
the built encoding: the encoding is minimal-length. -/
theorem build_minimal (n : Nat) (l : List Nat) (hp : VLQ.parse l = (n, []))
    (hne : l ≠ []) : (VLQ.build (n : Int)).length ≤ l.length := by
  have hbound : n < 128 ^ l.length := by
    have := parseAux_fst_lt l 0
    rw [VLQ.parse] at hp
    rw [hp] at this
    simpa using this
  have hlen : 1 ≤ l.length := by
    cases l with
    | nil => exact absurd rfl hne
    | cons x xs => simp
  have hdiv : n / 128 < 128 ^ (l.length - 1) := by
    rw [Nat.div_lt_iff_lt_mul (by norm_num)]
    calc n < 128 ^ l.length := hbound
    _ = 128 ^ (l.length - 1) * 128 := by
      rw [← Nat.pow_succ]
      congr 1
      omega
  have := hiPart_length_le (l.length - 1) (n / 128) hdiv
  rw [build_length]
  omega

/-- `SignedVLQ` round trip for every integer (zigzag is a bijection). -/
theorem SignedVLQ_parse_build (i : Int) (rest : List Nat) :
    SignedVLQ.parse (SignedVLQ.build i ++ rest) = (i, rest) := by
  rw [SignedVLQ.build, SignedVLQ.parse]
  by_cases hneg : i < 0
  · rw [if_pos hneg]
    have habs : ((i * 2).natAbs : Int) - 1 = ((2 * i.natAbs - 1 : Nat) : Int) := by omega
    rw [habs, VLQ_parse_build]
    simp only []
    have hodd : (2 * i.natAbs - 1) &&& 1 = 1 := by
      calc (2 * i.natAbs - 1) &&& 1 = (2 * i.natAbs - 1) % 2 := Nat.and_one_is_mod _
      _ = 1 := by omega
    rw [hodd]
    simp only [one_ne_zero, if_false]
    have hshift : (2 * i.natAbs - 1) >>> 1 = i.natAbs - 1 := by
      rw [Nat.shiftRight_eq_div_pow]
      norm_num
      omega
    rw [hshift]
    have hfin : -((((i.natAbs - 1 : Nat) : Int)) + 1) = i := by omega
    rw [hfin]
  · rw [if_neg hneg]
    have habs : ((i * 2).natAbs : Int) = ((2 * i.toNat : Nat) : Int) := by omega
    rw [habs, VLQ_parse_build]
    simp only []
    have heven : (2 * i.toNat) &&& 1 = 0 := by
      calc (2 * i.toNat) &&& 1 = (2 * i.toNat) % 2 := Nat.and_one_is_mod _
      _ = 0 := by omega
    rw [heven]
    simp only [if_true]
    have hshift : (2 * i.toNat) >>> 1 = i.toNat := by
      rw [Nat.shiftRight_eq_div_pow]
      norm_num
    rw [hshift]
    have hfin : ((i.toNat : Nat) : Int) = i := by omega
    rw [hfin]


/-! ## UTF-8 correctness -/

/-- Decoding consumes one encoded scalar and pushes its code point. -/
theorem utf8DecodeAux_encodeChar (c : Nat) (hs : isScalar c = true) (t acc : List Nat) :
    utf8DecodeAux (utf8EncodeChar c ++ t) acc = utf8DecodeAux t (c :: acc) := by
  simp only [isScalar, Bool.and_eq_true, Bool.or_eq_true, decide_eq_true_eq] at hs
  rw [utf8EncodeChar]
  by_cases h1 : c < 0x80
  · rw [if_pos h1, List.singleton_append, utf8DecodeAux, if_pos h1]
  · rw [if_neg h1]
    by_cases h2 : c < 0x800
    · rw [if_pos h2, List.cons_append, List.singleton_append, utf8DecodeAux]
      rw [if_neg (by omega), if_neg (by omega), if_pos (by omega), utf8Dec2]
      rw [if_neg (by simp only [Bool.or_eq_true, decide_eq_true_eq]; omega)]
      have hval : (0xC0 + c / 64 - 0xC0) * 64 + (0x80 + c % 64 - 0x80) = c := by omega
      rw [hval]
    · rw [if_neg h2]
      by_cases h3 : c < 0x10000
      · rw [if_pos h3, List.cons_append, List.cons_append, List.singleton_append,
          utf8DecodeAux]
        rw [if_neg (by omega), if_neg (by omega), if_neg (by omega), if_pos (by omega),
          utf8Dec3]
        rw [if_neg (by simp only [Bool.or_eq_true, decide_eq_true_eq]; omega)]
        simp only []
        have hval : (0xE0 + c / 4096 - 0xE0) * 4096 + (0x80 + c / 64 % 64 - 0x80) * 64
            + (0x80 + c % 64 - 0x80) = c := by omega
        rw [hval]
        rw [if_neg (by
          simp only [Bool.or_eq_true, Bool.and_eq_true, decide_eq_true_eq]
          omega)]
      · rw [if_neg h3, List.cons_append, List.cons_append, List.cons_append,
          List.singleton_append, utf8DecodeAux]
        rw [if_neg (by omega), if_neg (by omega), if_neg (by omega), if_neg (by omega),
          if_pos (by omega), utf8Dec4]
        rw [if_neg (by simp only [Bool.or_eq_true, decide_eq_true_eq]; omega)]
        simp only []
        have hval : (0xF0 + c / 0x40000 - 0xF0) * 0x40000
            + (0x80 + c / 4096 % 64 - 0x80) * 4096
            + (0x80 + c / 64 % 64 - 0x80) * 64 + (0x80 + c % 64 - 0x80) = c := by omega
        rw [hval]
        rw [if_neg (by simp only [Bool.or_eq_true, decide_eq_true_eq]; omega)]

theorem utf8DecodeAux_encode_eq (s : List Nat) : ∀ acc : List Nat, s.all isScalar = true →
    utf8DecodeAux (utf8Encode s ++ []) acc = some (acc.reverse ++ s) := by
  induction s with
  | nil =>
    intro acc _
    rw [utf8Encode]
    simp [utf8DecodeAux]
  | cons c cs ih =>
    intro acc hall
    simp only [List.all_cons, Bool.and_eq_true] at hall
    have henc : utf8Encode (c :: cs) ++ [] = utf8EncodeChar c ++ (utf8Encode cs ++ []) := by
      rw [utf8Encode, utf8Encode]
      simp
    rw [henc, utf8DecodeAux_encodeChar c hall.1, ih (c :: acc) hall.2]
    simp

/-- Round trip: UTF-8 decoding an encoded scalar string gives it back. -/
theorem utf8Decode_encode (s : List Nat) (hall : s.all isScalar = true) :
    utf8Decode (utf8Encode s) = some s := by
  have h := utf8DecodeAux_encode_eq s [] hall
  rw [List.append_nil] at h
  rw [utf8Decode, h]
  simp

/-! ## Container round trips -/

/-- `StarByteArray` round trip, with trailing bytes untouched. -/
theorem StarByteArray_parse_build (bs rest : List Nat) :
    StarByteArray.parse (StarByteArray.build bs ++ rest) = (bs, rest) := by
  rw [StarByteArray.build, StarByteArray.parse, List.append_assoc, VLQ_parse_build]
  simp only []
  rw [List.take_left, List.drop_left]

/-- A truncated `StarByteArray` payload: `stream.read` hands back whatever
is available, with no error. -/
theorem StarByteArray_parse_short (n : Nat) (bs : List Nat) (hlen : bs.length ≤ n) :
    StarByteArray.parse (VLQ.build (n : Int) ++ bs) = (bs, []) := by
  rw [StarByteArray.parse, VLQ_parse_build]
  simp only []
  rw [List.take_of_length_le hlen, List.drop_of_length_le hlen]

/-- `StarString.parse` on a framed payload: UTF-8 text when the payload
decodes, the raw bytes otherwise. -/
theorem StarString_parse_eq (bs rest : List Nat) :
    StarString.parse (StarByteArray.build bs ++ rest) =
      (match utf8Decode bs with
       | some cps => VKey.s cps
       | Option.none => VKey.b bs, rest) := by
  rw [StarString.parse, StarByteArray_parse_build]
  simp only []
  cases utf8Decode bs <;> simp

/-- `StarString` round trip on scalar text. -/
theorem StarString_parse_build (cps : List Nat) (hall : cps.all isScalar = true)
    (rest : List Nat) :
    StarString.parse (StarByteArray.build (utf8Encode cps) ++ rest) = (.s cps, rest) := by
  rw [StarString_parse_eq, utf8Decode_encode cps hall]

/-! ## Struct engine lemmas -/

/-- Structural induction for `Fields` (the `Codec` side of the mutual
inductive needs no motive here). -/
def Fields.inductionOn {motive : Fields → Prop} (fs : Fields) (hnil : motive .fnil)
    (hcons : ∀ (name : String) (c : Codec) (rest : Fields),
      motive rest → motive (.fcons name c rest)) : motive fs :=
  match fs with
  | .fnil => hnil
  | .fcons n c rest => hcons n c rest (Fields.inductionOn rest hnil hcons)

/-- Is this codec a composite record? -/
def Codec.isComposite : Codec → Bool
  | .composite _ => true
  | _ => false

/-- Field decoding is sequential: running an appended field list equals
running the prefix first, then the suffix from the stream position and
context state the prefix left behind — fields run in declared order. -/
theorem parseFields_append (fuel : Nat) (pre post : Fields) : ∀ (s : List Nat) (ctx : Nat)
    (heap : Heap),
    parseFields fuel (pre.append post) s ctx heap =
      match parseFields fuel pre s ctx heap with
      | .ok (s1, h1) => parseFields fuel post s1 ctx h1
      | .error eh => .error eh := by
  induction pre using Fields.inductionOn with
  | hnil =>
    intro s ctx heap
    rw [Fields.append]
    simp [parseFields]
  | hcons name c rest ih =>
    intro s ctx heap
    rw [Fields.append]
    rw [parseFields]
    conv_rhs => rw [parseFields]
    cases hc : parseCodec fuel c s ctx heap with
    | error eh =>
      obtain ⟨e, h1⟩ := eh
      simp only []
    | ok vsh =>
      obtain ⟨v, s1, h1⟩ := vsh
      simp only []
      rw [ih]

/-- One field: decode with the shared context, then assign the result into
the context dict under the field's name. -/
theorem parseFields_single (fuel : Nat) (name : String) (c : Codec) (s : List Nat)
    (ctx : Nat) (heap : Heap) (v : Val) (s1 : List Nat) (h1 : Heap)
    (hok : parseCodec fuel c s ctx heap = .ok (v, s1, h1)) :
    parseFields fuel (.fcons name c .fnil) s ctx heap = .ok (s1, heapSet h1 ctx name v) := by
  rw [parseFields, hok]
  simp [parseFields]

/-- First failure aborts: whatever fields follow the failing one, the
composite decode stops at the failure, re-raising it with the partially
filled shared context attached. -/
theorem parseFields_abort (fuel : Nat) (pre : Fields) (name : String) (c : Codec)
    (post : Fields) (s : List Nat) (ctx : Nat) (heap : Heap) (s1 : List Nat) (h1 : Heap)
    (e : PErr) (h2 : Heap)
    (hpre : parseFields fuel pre s ctx heap = .ok (s1, h1))
    (hfail : parseCodec fuel c s1 ctx h1 = .error (e, h2)) :
    parseFields fuel (pre.append (.fcons name c post)) s ctx heap
      = .error (.diag (heapGet h2 ctx) e, h2) := by
  rw [parseFields_append, hpre]
  simp only []
  rw [parseFields, hfail]

/-- A composite record's decode result is the very context object that was
threaded through it. -/
theorem parseCodec_composite_ref (fuel : Nat) (fs : Fields) (s : List Nat) (ctx : Nat)
    (heap : Heap) (v : Val) (s1 : List Nat) (h1 : Heap)
    (hok : parseCodec fuel (.composite fs) s ctx heap = .ok (v, s1, h1)) :
    v = .ref ctx := by
  cases fs with
  | fnil =>
    rw [parseCodec] at hok
    simp at hok
  | fcons n c rest =>
    rw [parseCodec] at hok
    cases hpf : parseFields fuel (.fcons n c rest) s ctx heap with
    | error eh =>
      rw [hpf] at hok
      simp at hok
    | ok sh =>
      obtain ⟨s2, h2⟩ := sh
      rw [hpf] at hok
      simp only [Except.ok.injEq, Prod.mk.injEq] at hok
      exact hok.1.symm

/-- Field encoding is sequential concatenation in declared order. -/
theorem buildFields_append (pre post : Fields) (obj : Dict) :
    buildFields (pre.append post) obj =
      match buildFields pre obj with
      | .ok bs =>
        match buildFields post obj with
        | .ok bs2 => .ok (bs ++ bs2)
        | .error e => .error e
      | .error e => .error e := by
  induction pre using Fields.inductionOn with
  | hnil =>
    rw [Fields.append]
    simp only [buildFields]
    cases buildFields post obj <;> simp
  | hcons name c rest ih =>
    rw [Fields.append]
    rw [buildFields]
    conv_rhs => rw [buildFields]
    cases hb : buildCodec c (if dictHas obj name then dictGet obj name else .none) with
    | error e => simp only []
    | ok bs =>
      simp only []
      rw [ih]
      cases buildFields rest obj with
      | error e => simp only []
      | ok bs2 =>
        simp only []
        cases buildFields post obj with
        | error e => simp only []
        | ok bs3 => simp

/-! ## Truncation behaviour lemmas -/

/-- A stream of continuation bytes only: `VLQ._parse` hits end-of-stream
mid-sequence and returns the value accumulated so far, with no error. -/
theorem parseAux_all_hi (s : List Nat) : ∀ value : Nat, (∀ b ∈ s, b &&& 0x80 ≠ 0) →
    VLQ.parseAux s value
      = (s.foldl (fun v b => (v <<< 7) ||| (b &&& 0x7f)) value, []) := by
  induction s with
  | nil =>
    intro value _
    rw [VLQ.parseAux]
    simp
  | cons b rest ih =>
    intro value hall
    rw [VLQ.parseAux]
    rw [if_neg (hall b (by simp))]
    rw [ih _ (fun x hx => hall x (by simp [hx]))]
    simp

/-! ## Claim theorems -/

/-- C3: for every `n` in `[0, 2^35)`, `VLQ.parse (VLQ.build n) = n`; the
encoding is the minimal-length big-endian base-128 form (continuation
digits, then a final low digit), with `n = 0` encoding to the single byte
`0x00`; and for every `n` in `(-2^34, 2^34)`,
`SignedVLQ.parse (SignedVLQ.build n) = n` under the zigzag mapping. -/
theorem claim_C3 :
    (∀ n : Nat, n < 2 ^ 35 → ∀ rest : List Nat,
      VLQ.parse (VLQ.build (n : Int) ++ rest) = (n, rest)) ∧
    VLQ.build (0 : Int) = [0x00] ∧
    (∀ n : Nat, n < 2 ^ 35 → VLQ.build (n : Int) = hiPart (n / 128) ++ [n % 128]) ∧
    (∀ n : Nat, n < 2 ^ 35 → ∀ l : List Nat, VLQ.parse l = (n, []) → l ≠ [] →
      (VLQ.build (n : Int)).length ≤ l.length) ∧
    (∀ i : Int, -(2 ^ 34) < i → i < 2 ^ 34 → ∀ rest : List Nat,
      SignedVLQ.parse (SignedVLQ.build i ++ rest) = (i, rest)) := by
  refine ⟨?_, rfl, ?_, ?_, ?_⟩
  · intro n _ rest
    exact VLQ_parse_build n rest
  · intro n _
    exact build_eq_hiPart n
  · intro n _ l hp hne
    exact build_minimal n l hp hne
  · intro i _ _ rest
    exact SignedVLQ_parse_build i rest

/-- Witness for C3 at concrete inputs. -/
theorem claim_C3_witness :
    ((300 : Nat) < 2 ^ 35 ∧
      VLQ.parse (VLQ.build ((300 : Nat) : Int) ++ [7]) = (300, [7])) ∧
    (VLQ.parse [0x82, 0x2C] = (300, []) ∧ ([0x82, 0x2C] : List Nat) ≠ [] ∧
      (VLQ.build ((300 : Nat) : Int)).length ≤ ([0x82, 0x2C] : List Nat).length) ∧
    (-(2 ^ 34) < (-5 : Int) ∧ (-5 : Int) < 2 ^ 34 ∧
      SignedVLQ.parse (SignedVLQ.build (-5) ++ [1]) = (-5, [1])) := by
  refine ⟨⟨by norm_num, claim_C3.1 300 (by norm_num) [7]⟩,
    ⟨by decide, by decide, claim_C3.2.2.2.1 300 (by norm_num) [0x82, 0x2C]
      (by decide) (by decide)⟩,
    ⟨by norm_num, by norm_num, claim_C3.2.2.2.2 (-5) (by norm_num) (by norm_num) [1]⟩⟩

/-- C7: `Flag` decode returns `true` whenever a byte was read at all — even
`0x00` — and `false` only when the stream is exhausted; `Flag` encode writes
the canonical single byte `0x01` or `0x00`. -/
theorem claim_C7 :
    (∀ (b : Nat) (s : List Nat), Flag.parse (b :: s) = (true, s)) ∧
    Flag.parse [] = (false, []) ∧
    Flag.build true = [0x01] ∧
    Flag.build false = [0x00] :=
  ⟨fun _ _ => rfl, rfl, rfl, rfl⟩

/-- C5 counterexample: `Variant._parse` on the out-of-range tags `0x08` and
`0x00` succeeds and returns `None` — no error is raised, refuting the claim
that decode fails with a hard error for a tag outside 1–7. -/
theorem claim_C5_counterexample :
    variantParse 1 [0x08] = .ok (.none, []) ∧
    variantParse 1 [0x00, 99] = .ok (.none, [99]) :=
  ⟨rfl, rfl⟩

/-- C5 amended: for every input whose first byte is outside 1–7, `Variant`
decode silently returns `None` (exactly the tag-1 result) — the Python
`if`/`elif` chain has no `else`, so the method falls through. -/
theorem claim_C5_amended (fuel b : Nat) (s : List Nat) (hb : b = 0 ∨ 8 ≤ b) :
    variantParse (fuel + 1) (b :: s) = .ok (.none, s) := by
  rw [variantParse]
  simp only [Byte.parse]
  rw [if_neg (by omega), if_neg (by omega), if_neg (by omega), if_neg (by omega),
    if_neg (by omega), if_neg (by omega), if_neg (by omega)]

/-- Witness for the amended C5 at tag `0` and tag `9`. -/
theorem claim_C5_witness :
    ((0 : Nat) = 0 ∨ 8 ≤ (0 : Nat)) ∧ variantParse 3 [0, 5, 6] = .ok (.none, [5, 6]) ∧
    ((9 : Nat) = 0 ∨ 8 ≤ (9 : Nat)) ∧ variantParse 1 [9, 1] = .ok (.none, [1]) :=
  ⟨Or.inl rfl, claim_C5_amended 2 0 [5, 6] (Or.inl rfl),
    Or.inr (by norm_num), claim_C5_amended 0 9 [1] (Or.inr (by norm_num))⟩

/-- C4: evaluating `Variant._parse` on the two spec fixtures.  The double
fixture `[0x02]` + 8 IEEE-754 bytes decodes to the one-element tuple
`struct.unpack` returns — `BDouble._parse` lacks the `[0]` every sibling
codec has — not to the bare double the claim states; the dict fixture
decodes to `{"k": 5}` as claimed. -/
theorem claim_C4 :
    variantParse 5 [0x02, 0x3F, 0xF0, 0x00, 0x00, 0x00, 0x00, 0x00, 0x00]
      = .ok (.tuple [.float64 0x3FF0000000000000], []) ∧
    variantParse 10 [0x07, 0x01, 0x01, 0x6B, 0x04, 0x0A]
      = .ok (.vdict [(.s [0x6B], .int 5)], []) :=
  ⟨rfl, rfl⟩

/-- C6 counterexample: `Byte` decode of an exhausted stream returns `0`
with no error (`int.from_bytes(b"")`), and `StarByteArray` returns the
available bytes when the stream ends before the declared length — refuting
the claim that every fixed-width and length-prefixed codec fails on
truncation. -/
theorem claim_C6_counterexample :
    Byte.parse [] = (0, []) ∧
    StarByteArray.parse [5, 1, 2] = ([1, 2], []) :=
  ⟨rfl, rfl⟩

/-- C6 amended: the `struct.unpack` codecs (UBInt16/SBInt16, UBInt32/SBInt32,
BFloat32, BDouble) fail with a structural error when the stream ends before
the field completes; `Byte` instead returns `0` at end-of-stream,
`StarByteArray` returns just the bytes available, and `VLQ` tolerates
truncation, returning the integer accumulated so far. -/
theorem claim_C6_amended :
    (∀ s : List Nat, s.length < 2 →
      UBInt16.parse s = .error .structuralErr ∧ SBInt16.parse s = .error .structuralErr) ∧
    (∀ s : List Nat, s.length < 4 →
      UBInt32.parse s = .error .structuralErr ∧ SBInt32.parse s = .error .structuralErr ∧
      BFloat32.parse s = .error .structuralErr) ∧
    (∀ s : List Nat, s.length < 8 → BDouble.parse s = .error .structuralErr) ∧
    Byte.parse [] = (0, []) ∧
    (∀ (n : Nat) (bs : List Nat), bs.length < n →
      StarByteArray.parse (VLQ.build (n : Int) ++ bs) = (bs, [])) ∧
    (∀ s : List Nat, (∀ b ∈ s, b &&& 0x80 ≠ 0) →
      VLQ.parse s = (s.foldl (fun v b => (v <<< 7) ||| (b &&& 0x7f)) 0, [])) := by
  refine ⟨?_, ?_, ?_, rfl, ?_, ?_⟩
  · intro s hs
    match s, hs with
    | [], _ => exact ⟨rfl, rfl⟩
    | [_], _ => exact ⟨rfl, rfl⟩
  · intro s hs
    match s, hs with
    | [], _ => exact ⟨rfl, rfl, rfl⟩
    | [_], _ => exact ⟨rfl, rfl, rfl⟩
    | [_, _], _ => exact ⟨rfl, rfl, rfl⟩
    | [_, _, _], _ => exact ⟨rfl, rfl, rfl⟩
  · intro s hs
    match s, hs with
    | [], _ => exact rfl
    | [_], _ => exact rfl
    | [_, _], _ => exact rfl
    | [_, _, _], _ => exact rfl
    | [_, _, _, _], _ => exact rfl
    | [_, _, _, _, _], _ => exact rfl
    | [_, _, _, _, _, _], _ => exact rfl
    | [_, _, _, _, _, _, _], _ => exact rfl
  · intro n bs hlen
    exact StarByteArray_parse_short n bs (Nat.le_of_lt hlen)
  · intro s hall
    exact parseAux_all_hi s 0 hall

/-- Witness for the amended C6 at concrete truncated inputs. -/
theorem claim_C6_witness :
    (([9] : List Nat).length < 2 ∧ UBInt16.parse [9] = .error .structuralErr ∧
      SBInt16.parse [9] = .error .structuralErr) ∧
    (([9, 9, 9] : List Nat).length < 4 ∧ UBInt32.parse [9, 9, 9] = .error .structuralErr ∧
      SBInt32.parse [9, 9, 9] = .error .structuralErr ∧
      BFloat32.parse [9, 9, 9] = .error .structuralErr) ∧
    (([1, 2, 3, 4, 5, 6, 7] : List Nat).length < 8 ∧
      BDouble.parse [1, 2, 3, 4, 5, 6, 7] = .error .structuralErr) ∧
    (([1, 2] : List Nat).length < 5 ∧
      StarByteArray.parse (VLQ.build ((5 : Nat) : Int) ++ [1, 2]) = ([1, 2], [])) ∧
    ((∀ b ∈ ([0x81] : List Nat), b &&& 0x80 ≠ 0) ∧ VLQ.parse [0x81] = (1, [])) := by
  refine ⟨⟨by norm_num, (claim_C6_amended.1 [9] (by norm_num)).1,
      (claim_C6_amended.1 [9] (by norm_num)).2⟩,
    ⟨by norm_num, (claim_C6_amended.2.1 [9, 9, 9] (by norm_num)).1,
      (claim_C6_amended.2.1 [9, 9, 9] (by norm_num)).2.1,
      (claim_C6_amended.2.1 [9, 9, 9] (by norm_num)).2.2⟩,
    ⟨by norm_num, claim_C6_amended.2.2.1 [1, 2, 3, 4, 5, 6, 7] (by norm_num)⟩,
    ⟨by norm_num, claim_C6_amended.2.2.2.2.1 5 [1, 2] (by norm_num)⟩,
    ⟨by decide, ?_⟩⟩
  have h := claim_C6_amended.2.2.2.2.2 [0x81] (by decide)
  simpa using h

/-- C8: whenever the length-prefixed payload of a `StarString` is not valid
UTF-8, decode returns the identical raw bytes and never raises; on valid
UTF-8 it returns the decoded text; encode always treats its input as UTF-8
text (length prefix over the UTF-8 bytes). -/
theorem claim_C8 :
    (∀ s bs rest : List Nat, StarByteArray.parse s = (bs, rest) →
      utf8Decode bs = Option.none → StarString.parse s = (.b bs, rest)) ∧
    (∀ s bs cps rest : List Nat, StarByteArray.parse s = (bs, rest) →
      utf8Decode bs = some cps → StarString.parse s = (.s cps, rest)) ∧
    (∀ cps : List Nat, cps.all isScalar = true →
      StarString.build cps
        = .ok (VLQ.build ((utf8Encode cps).length : Int) ++ utf8Encode cps)) := by
  refine ⟨?_, ?_, ?_⟩
  · intro s bs rest hp hd
    rw [StarString.parse, hp]
    simp only []
    rw [hd]
  · intro s bs cps rest hp hd
    rw [StarString.parse, hp]
    simp only []
    rw [hd]
  · intro cps h
    rw [StarString.build, if_pos h, StarByteArray.build]

/-- Witness for C8: the invalid byte `0xFF` comes back raw, the valid byte
`"k"` comes back as text, and encode emits length prefix plus UTF-8. -/
theorem claim_C8_witness :
    (StarByteArray.parse [1, 0xFF] = ([0xFF], []) ∧ utf8Decode [0xFF] = Option.none ∧
      StarString.parse [1, 0xFF] = (.b [0xFF], [])) ∧
    (StarByteArray.parse [1, 0x6B] = ([0x6B], []) ∧ utf8Decode [0x6B] = some [0x6B] ∧
      StarString.parse [1, 0x6B] = (.s [0x6B], [])) ∧
    (([0x6B] : List Nat).all isScalar = true ∧
      StarString.build [0x6B]
        = .ok (VLQ.build ((utf8Encode [0x6B]).length : Int) ++ utf8Encode [0x6B])) :=
  ⟨⟨rfl, rfl, claim_C8.1 [1, 0xFF] [0xFF] [] rfl rfl⟩,
    ⟨rfl, rfl, claim_C8.2.1 [1, 0x6B] [0x6B] [0x6B] [] rfl rfl⟩,
    ⟨rfl, claim_C8.2.2 [0x6B] rfl⟩⟩

/-- C9: `BasePacket._build` emits exactly one ID byte, then the `SignedVLQ`
of `len(data)` — negated exactly when the context's compressed flag is set —
then the payload bytes, UTF-8-encoding a text payload first; in particular
`{id: 0, data: b""}` with no compression flag yields `[0x00, 0x00]`. -/
theorem claim_C9 :
    (∀ id : Nat, id < 256 → ∀ (bs : List Nat) (compressed : Bool),
      BasePacket.build id (.raw bs) compressed =
        .ok ([id] ++ SignedVLQ.build (if compressed then -(bs.length : Int)
          else (bs.length : Int)) ++ bs)) ∧
    (∀ id : Nat, id < 256 → ∀ (cps : List Nat) (compressed : Bool),
      cps.all isScalar = true →
      BasePacket.build id (.text cps) compressed =
        .ok ([id] ++ SignedVLQ.build (if compressed then -(cps.length : Int)
          else (cps.length : Int)) ++ utf8Encode cps)) ∧
    BasePacket.build 0 (.raw []) false = .ok [0x00, 0x00] := by
  refine ⟨?_, ?_, rfl⟩
  · intro id hid bs compressed
    rw [BasePacket.build, Byte.build,
      if_pos (show (0 : Int) ≤ (id : Int) ∧ (id : Int) < 256 by omega)]
    simp only [Except.bind, PacketData.len, Int.toNat_natCast, Int.natAbs_ofNat]
  · intro id hid cps compressed hall
    rw [BasePacket.build, Byte.build,
      if_pos (show (0 : Int) ≤ (id : Int) ∧ (id : Int) < 256 by omega)]
    simp only [Except.bind, PacketData.len, Int.toNat_natCast, Int.natAbs_ofNat]
    rw [if_pos hall]

/-- Witness for C9 at concrete inputs, compressed and not. -/
theorem claim_C9_witness :
    ((7 : Nat) < 256 ∧
      BasePacket.build 7 (.raw [1, 2]) true =
        .ok ([7] ++ SignedVLQ.build (-((([1, 2] : List Nat).length : Int))) ++ [1, 2])) ∧
    ((3 : Nat) < 256 ∧ ([0x6B] : List Nat).all isScalar = true ∧
      BasePacket.build 3 (.text [0x6B]) false =
        .ok ([3] ++ SignedVLQ.build (([0x6B] : List Nat).length : Int)
          ++ utf8Encode [0x6B])) := by
  refine ⟨⟨by norm_num, ?_⟩, ⟨by norm_num, rfl, ?_⟩⟩
  · have h := claim_C9.1 7 (by norm_num) [1, 2] true
    simpa using h
  · have h := claim_C9.2.1 3 (by norm_num) [0x6B] false rfl
    simpa using h

/-- The context dictionary the `WorldStart` fixture decodes to: the nested
`SpawnCoordinates` field names `x`/`y` appear as top-level keys, and the
`spawn` entry is the shared context object itself (`Val.ref 0`). -/
def worldStartDecoded : Dict :=
  [("template_data", Val.none), ("sky_data", Val.bytes []),
   ("weather_data", Val.bytes []), ("x", Val.float32 0),
   ("y", Val.float32 0x3F800000), ("spawn", Val.ref 0),
   ("respawn_in_world", Val.bool true), ("world_properties", Val.none),
   ("client_id", Val.int 7), ("local_interpolation", Val.bool true)]

/-- C10: a composite record decoded via `parse` hands back the very context
object threaded through the decode, so a nested composite field (WorldStart's
`spawn : SpawnCoordinates`) leaks its field names `x`, `y` into the parent's
top-level mapping, and the `spawn` value is that same shared mapping
(`Val.ref 0`), not a separate two-field mapping. -/
theorem claim_C10 :
    (∀ (fuel : Nat) (fs : Fields) (s : List Nat) (ctx : Nat) (heap : Heap) (v : Val)
      (s1 : List Nat) (h1 : Heap),
      parseCodec fuel (.composite fs) s ctx heap = .ok (v, s1, h1) → v = .ref ctx) ∧
    Struct.parse 10 WorldStart [1, 0, 0, 0, 0, 0, 0, 0x3F, 0x80, 0, 0, 1, 1, 0, 7, 0]
      = .ok (.ref 0, [], [worldStartDecoded]) ∧
    dictHas worldStartDecoded "x" = true ∧
    dictHas worldStartDecoded "y" = true ∧
    dictGet worldStartDecoded "spawn" = .ref 0 := by
  refine ⟨?_, rfl, rfl, rfl, rfl⟩
  intro fuel fs s ctx heap v s1 h1 hok
  exact parseCodec_composite_ref fuel fs s ctx heap v s1 h1 hok

/-- Witness for C10: the `SpawnCoordinates` composite decoded at a concrete
input returns its context reference. -/
theorem claim_C10_witness :
    parseCodec 1 SpawnCoordinates [0, 0, 0, 0, 0x3F, 0x80, 0, 0] 0 [[]]
      = .ok (.ref 0, [], [[("x", Val.float32 0), ("y", Val.float32 0x3F800000)]]) ∧
    Val.ref 0 = Val.ref 0 := by
  refine ⟨rfl, ?_⟩
  exact claim_C10.1 1 (.fcons "x" .bfloat32 (.fcons "y" .bfloat32 .fnil))
    [0, 0, 0, 0, 0x3F, 0x80, 0, 0] 0 [[]] (.ref 0) []
    [[("x", Val.float32 0), ("y", Val.float32 0x3F800000)]] rfl

/-- C2: composite decode runs the declared field list in order (running an
appended list is running the prefix, then the suffix from the state it
left); each field's result is assigned into the shared context under the
field's name; the first field failure aborts — whatever fields follow, the
result is the failure with the partially filled context attached — and the
encoded byte order is the declaration order (field encodings concatenate in
sequence). -/
theorem claim_C2 :
    (∀ (fuel : Nat) (pre post : Fields) (s : List Nat) (ctx : Nat) (heap : Heap),
      parseFields fuel (pre.append post) s ctx heap =
        match parseFields fuel pre s ctx heap with
        | .ok (s1, h1) => parseFields fuel post s1 ctx h1
        | .error eh => .error eh) ∧
    (∀ (fuel : Nat) (name : String) (c : Codec) (s : List Nat) (ctx : Nat) (heap : Heap)
      (v : Val) (s1 : List Nat) (h1 : Heap),
      parseCodec fuel c s ctx heap = .ok (v, s1, h1) →
      parseFields fuel (.fcons name c .fnil) s ctx heap
        = .ok (s1, heapSet h1 ctx name v)) ∧
    (∀ (fuel : Nat) (pre : Fields) (name : String) (c : Codec) (post : Fields)
      (s : List Nat) (ctx : Nat) (heap : Heap) (s1 : List Nat) (h1 : Heap) (e : PErr)
      (h2 : Heap),
      parseFields fuel pre s ctx heap = .ok (s1, h1) →
      parseCodec fuel c s1 ctx h1 = .error (e, h2) →
      parseFields fuel (pre.append (.fcons name c post)) s ctx heap
        = .error (.diag (heapGet h2 ctx) e, h2)) ∧
    (∀ (pre post : Fields) (obj : Dict),
      buildFields (pre.append post) obj =
        match buildFields pre obj with
        | .ok bs =>
          match buildFields post obj with
          | .ok bs2 => .ok (bs ++ bs2)
          | .error e => .error e
        | .error e => .error e) :=
  ⟨parseFields_append, parseFields_single, parseFields_abort, buildFields_append⟩

/-- Witness for C2: a `Byte` field decodes and is stored under its name;
a following `UBInt16` field fails on the exhausted stream and the composite
aborts with the partial context `{"mode": 5}` attached, never running the
fields declared after it. -/
theorem claim_C2_witness :
    (parseCodec 1 .byte [5] 0 [[]] = .ok (.int 5, [], [[]]) ∧
      parseFields 1 (.fcons "mode" .byte .fnil) [5] 0 [[]]
        = .ok ([], [[("mode", Val.int 5)]])) ∧
    (parseFields 1 (.fcons "mode" .byte .fnil) [5] 0 [[]]
        = .ok ([], [[("mode", Val.int 5)]]) ∧
      parseCodec 1 .ubint16 [] 0 [[("mode", Val.int 5)]]
        = .error (.structuralErr, [[("mode", Val.int 5)]]) ∧
      parseFields 1 ((Fields.fcons "mode" .byte .fnil).append
          (.fcons "client_id" .ubint16 (.fcons "name" .starString .fnil))) [5] 0 [[]]
        = .error (.diag [("mode", Val.int 5)] .structuralErr,
            [[("mode", Val.int 5)]])) := by
  refine ⟨⟨rfl, ?_⟩, rfl, rfl, ?_⟩
  · exact claim_C2.2.1 1 "mode" .byte [5] 0 [[]] (.int 5) [] [[]] rfl
  · exact claim_C2.2.2.1 1 (.fcons "mode" .byte .fnil) "client_id" .ubint16
      (.fcons "name" .starString .fnil) [5] 0 [[]] [] [[("mode", Val.int 5)]]
      .structuralErr [[("mode", Val.int 5)]] rfl rfl

/-! ## Fixed-width round trips (for C1) -/

theorem toBytesBE_two (n : Nat) : toBytesBE 2 n = [n / 256 % 256, n % 256] := by
  rw [toBytesBE, toBytesBE, toBytesBE]
  simp

theorem toBytesBE_four (n : Nat) :
    toBytesBE 4 n = [n / 16777216 % 256, n / 65536 % 256, n / 256 % 256, n % 256] := by
  rw [toBytesBE, toBytesBE, toBytesBE, toBytesBE, toBytesBE]
  simp [Nat.div_div_eq_div_mul]

theorem UBInt16_parse_build (n : Nat) (hn : n < 65536) (rest : List Nat) :
    UBInt16.parse (toBytesBE 2 n ++ rest) = .ok (n, rest) := by
  rw [toBytesBE_two, List.cons_append, List.singleton_append, UBInt16.parse]
  have hval : n / 256 % 256 * 256 + n % 256 = n := by omega
  rw [hval]

theorem SBInt16_parse_build (i : Int) (h1 : -32768 ≤ i) (h2 : i < 32768)
    (rest : List Nat) :
    SBInt16.parse (toBytesBE 2 (i % 65536).toNat ++ rest) = .ok (i, rest) := by
  rw [toBytesBE_two, List.cons_append, List.singleton_append, SBInt16.parse]
  have hval : (i % 65536).toNat / 256 % 256 * 256 + (i % 65536).toNat % 256
      = (i % 65536).toNat := by omega
  rw [hval]
  by_cases hc : (i % 65536).toNat < 32768
  · rw [if_pos hc]
    have hcast : (((i % 65536).toNat : Nat) : Int) = i := by omega
    rw [hcast]
  · rw [if_neg hc]
    have hcast : (((i % 65536).toNat : Nat) : Int) - 65536 = i := by omega
    rw [hcast]

theorem UBInt32_parse_build (n : Nat) (hn : n < 4294967296) (rest : List Nat) :
    UBInt32.parse (toBytesBE 4 n ++ rest) = .ok (n, rest) := by
  rw [toBytesBE_four, List.cons_append, List.cons_append, List.cons_append,
    List.singleton_append, UBInt32.parse]
  have hval : ((n / 16777216 % 256 * 256 + n / 65536 % 256) * 256 + n / 256 % 256) * 256
      + n % 256 = n := by omega
  rw [hval]

theorem SBInt32_parse_build (i : Int) (h1 : -2147483648 ≤ i) (h2 : i < 2147483648)
    (rest : List Nat) :
    SBInt32.parse (toBytesBE 4 (i % 4294967296).toNat ++ rest) = .ok (i, rest) := by
  rw [toBytesBE_four, List.cons_append, List.cons_append, List.cons_append,
    List.singleton_append, SBInt32.parse]
  have hval : (((i % 4294967296).toNat / 16777216 % 256 * 256
      + (i % 4294967296).toNat / 65536 % 256) * 256
      + (i % 4294967296).toNat / 256 % 256) * 256 + (i % 4294967296).toNat % 256
      = (i % 4294967296).toNat := by omega
  rw [hval]
  by_cases hc : (i % 4294967296).toNat < 2147483648
  · rw [if_pos hc]
    have hcast : (((i % 4294967296).toNat : Nat) : Int) = i := by omega
    rw [hcast]
  · rw [if_neg hc]
    have hcast : (((i % 4294967296).toNat : Nat) : Int) - 4294967296 = i := by omega
    rw [hcast]

theorem Byte_build_lt (n : Nat) (hn : n < 256) : Byte.build (n : Int) = .ok [n] := by
  rw [Byte.build, if_pos (show (0 : Int) ≤ (n : Int) ∧ (n : Int) < 256 by omega)]
  simp

theorem UBInt16_build_lt (n : Nat) (hn : n < 65536) :
    UBInt16.build (n : Int) = .ok (toBytesBE 2 n) := by
  rw [UBInt16.build, if_pos (show (0 : Int) ≤ (n : Int) ∧ (n : Int) < 65536 by omega)]
  simp

/-! ## Struct engine dispatch equations (for C1) -/

theorem buildFields_nil (obj : Dict) : buildFields .fnil obj = .ok [] := rfl

theorem buildFields_cons_eq (name : String) (c : Codec) (rest : Fields) (obj : Dict) :
    buildFields (.fcons name c rest) obj =
      match buildCodec c (if dictHas obj name then dictGet obj name else .none) with
      | .error e => .error (.diag [] e)
      | .ok bs =>
        match buildFields rest obj with
        | .error e => .error e
        | .ok bs2 => .ok (bs ++ bs2) := by
  rw [buildFields]

theorem parseFields_cons_eq (fuel : Nat) (name : String) (c : Codec) (rest : Fields)
    (s : List Nat) (ctx : Nat) (heap : Heap) :
    parseFields fuel (.fcons name c rest) s ctx heap =
      match parseCodec fuel c s ctx heap with
      | .error (e, h1) => .error (.diag (heapGet h1 ctx) e, h1)
      | .ok (v, s1, h1) => parseFields fuel rest s1 ctx (heapSet h1 ctx name v) := by
  rw [parseFields]

theorem parseCodec_byte_eq (fuel : Nat) (s : List Nat) (ctx : Nat) (heap : Heap) :
    parseCodec fuel .byte s ctx heap
      = .ok (.int (Byte.parse s).1, (Byte.parse s).2, heap) := by
  rw [parseCodec]

theorem parseCodec_starString_eq (fuel : Nat) (s : List Nat) (ctx : Nat) (heap : Heap) :
    parseCodec fuel .starString s ctx heap
      = .ok ((StarString.parse s).1.toVal, (StarString.parse s).2, heap) := by
  rw [parseCodec]

theorem parseCodec_ubint16_eq (fuel : Nat) (s : List Nat) (ctx : Nat) (heap : Heap) :
    parseCodec fuel .ubint16 s ctx heap =
      match UBInt16.parse s with
      | .ok (v, s1) => .ok (.int v, s1, heap)
      | .error e => .error (e, heap) := by
  rw [parseCodec]

theorem buildCodec_composite_eq (name : String) (c : Codec) (rest : Fields) (d : Dict) :
    buildCodec (.composite (.fcons name c rest)) (.record d)
      = buildFields (.fcons name c rest) d := by
  simp only [buildCodec]

theorem buildCodec_byte_val (n : Int) : buildCodec .byte (.int n) = Byte.build n := rfl

theorem buildCodec_ubint16_val (n : Int) :
    buildCodec .ubint16 (.int n) = UBInt16.build n := rfl

theorem buildCodec_starString_val (cps : List Nat) :
    buildCodec .starString (.str cps) = StarString.build cps := rfl

theorem UBInt32_build_lt (n : Nat) (hn : n < 4294967296) :
    UBInt32.build (n : Int) = .ok (toBytesBE 4 n) := by
  rw [UBInt32.build, if_pos (show (0 : Int) ≤ (n : Int) ∧ (n : Int) < 4294967296 by omega)]
  simp

theorem BFloat32_parse_build (n : Nat) (hn : n < 4294967296) (rest : List Nat) :
    BFloat32.parse (toBytesBE 4 n ++ rest) = .ok (n, rest) := by
  rw [toBytesBE_four, List.cons_append, List.cons_append, List.cons_append,
    List.singleton_append, BFloat32.parse]
  have hval : ((n / 16777216 % 256 * 256 + n / 65536 % 256) * 256 + n / 256 % 256) * 256
      + n % 256 = n := by omega
  rw [hval]

theorem parseCodec_ubint32_eq (fuel : Nat) (s : List Nat) (ctx : Nat) (heap : Heap) :
    parseCodec fuel .ubint32 s ctx heap =
      match UBInt32.parse s with
      | .ok (v, s1) => .ok (.int v, s1, heap)
      | .error e => .error (e, heap) := by
  rw [parseCodec]

theorem parseCodec_vlq_eq (fuel : Nat) (s : List Nat) (ctx : Nat) (heap : Heap) :
    parseCodec fuel .vlq s ctx heap
      = .ok (.int (VLQ.parse s).1, (VLQ.parse s).2, heap) := by
  rw [parseCodec]

theorem buildCodec_ubint32_val (n : Int) :
    buildCodec .ubint32 (.int n) = UBInt32.build n := rfl

theorem buildCodec_vlq_val (n : Int) :
    buildCodec .vlq (.int n) = .ok (VLQ.build n) := rfl

theorem buildCodec_bfloat32_val (bits : Nat) :
    buildCodec .bfloat32 (.float32 bits) = .ok (toBytesBE 4 bits) := rfl

/-! ## ChatReceived round trip (for C1) -/

theorem buildFields_cons_ok (name : String) (c : Codec) (rest : Fields) (obj : Dict)
    (bs bs2 : List Nat)
    (h1 : buildCodec c (if dictHas obj name then dictGet obj name else .none) = .ok bs)
    (h2 : buildFields rest obj = .ok bs2) :
    buildFields (.fcons name c rest) obj = .ok (bs ++ bs2) := by
  rw [buildFields_cons_eq, h1, h2]

set_option maxRecDepth 8192 in
/-- `ChatReceived.build` emits the five field encodings in declared order. -/
theorem chat_build (mode cid : Nat) (channel name message : List Nat)
    (hmode : mode < 256) (hcid : cid < 65536)
    (hch : channel.all isScalar = true) (hnm : name.all isScalar = true)
    (hmsg : message.all isScalar = true) :
    buildCodec ChatReceived (.record
        [("mode", .int mode), ("channel", .str channel), ("client_id", .int cid),
         ("name", .str name), ("message", .str message)])
      = .ok ([mode] ++ (StarByteArray.build (utf8Encode channel)
          ++ (toBytesBE 2 cid ++ (StarByteArray.build (utf8Encode name)
          ++ (StarByteArray.build (utf8Encode message) ++ []))))) := by
  rw [ChatReceived, buildCodec_composite_eq]
  refine buildFields_cons_ok _ _ _ _ _ _ ?_ ?_
  · rw [show (if dictHas [("mode", Val.int (mode : Int)), ("channel", Val.str channel),
      ("client_id", Val.int (cid : Int)), ("name", Val.str name),
      ("message", Val.str message)] "mode" then dictGet [("mode", Val.int (mode : Int)), ("channel", Val.str channel),
      ("client_id", Val.int (cid : Int)), ("name", Val.str name),
      ("message", Val.str message)] "mode" else Val.none)
        = Val.int (mode : Int) from rfl, buildCodec_byte_val, Byte_build_lt mode hmode]
  refine buildFields_cons_ok _ _ _ _ _ _ ?_ ?_
  · rw [show (if dictHas [("mode", Val.int (mode : Int)), ("channel", Val.str channel),
      ("client_id", Val.int (cid : Int)), ("name", Val.str name),
      ("message", Val.str message)] "channel" then dictGet [("mode", Val.int (mode : Int)), ("channel", Val.str channel),
      ("client_id", Val.int (cid : Int)), ("name", Val.str name),
      ("message", Val.str message)] "channel" else Val.none)
        = Val.str channel from rfl, buildCodec_starString_val, StarString.build,
      if_pos hch]
  refine buildFields_cons_ok _ _ _ _ _ _ ?_ ?_
  · rw [show (if dictHas [("mode", Val.int (mode : Int)), ("channel", Val.str channel),
      ("client_id", Val.int (cid : Int)), ("name", Val.str name),
      ("message", Val.str message)] "client_id" then dictGet [("mode", Val.int (mode : Int)), ("channel", Val.str channel),
      ("client_id", Val.int (cid : Int)), ("name", Val.str name),
      ("message", Val.str message)] "client_id" else Val.none)
        = Val.int (cid : Int) from rfl, buildCodec_ubint16_val, UBInt16_build_lt cid hcid]
  refine buildFields_cons_ok _ _ _ _ _ _ ?_ ?_
  · rw [show (if dictHas [("mode", Val.int (mode : Int)), ("channel", Val.str channel),
      ("client_id", Val.int (cid : Int)), ("name", Val.str name),
      ("message", Val.str message)] "name" then dictGet [("mode", Val.int (mode : Int)), ("channel", Val.str channel),
      ("client_id", Val.int (cid : Int)), ("name", Val.str name),
      ("message", Val.str message)] "name" else Val.none)
        = Val.str name from rfl, buildCodec_starString_val, StarString.build, if_pos hnm]
  refine buildFields_cons_ok _ _ _ _ _ _ ?_ ?_
  · rw [show (if dictHas [("mode", Val.int (mode : Int)), ("channel", Val.str channel),
      ("client_id", Val.int (cid : Int)), ("name", Val.str name),
      ("message", Val.str message)] "message" then dictGet [("mode", Val.int (mode : Int)), ("channel", Val.str channel),
      ("client_id", Val.int (cid : Int)), ("name", Val.str name),
      ("message", Val.str message)] "message" else Val.none)
        = Val.str message from rfl, buildCodec_starString_val, StarString.build,
      if_pos hmsg]
  exact buildFields_nil _

set_option maxRecDepth 8192 in
/-- Parsing the built `ChatReceived` bytes restores the instance
field-for-field, in declared order, into the shared context. -/
theorem chat_parse (mode cid : Nat) (channel name message : List Nat)
    (hcid : cid < 65536)
    (hch : channel.all isScalar = true) (hnm : name.all isScalar = true)
    (hmsg : message.all isScalar = true) :
    Struct.parse 0 ChatReceived
        ([mode] ++ (StarByteArray.build (utf8Encode channel)
          ++ (toBytesBE 2 cid ++ (StarByteArray.build (utf8Encode name)
          ++ (StarByteArray.build (utf8Encode message) ++ [])))))
      = .ok (.ref 0, [],
          [[("mode", Val.int mode), ("channel", Val.str channel),
            ("client_id", Val.int cid), ("name", Val.str name),
            ("message", Val.str message)]]) := by
  rw [Struct.parse, ChatReceived, parseCodec]
  rw [parseFields_cons_eq, parseCodec_byte_eq, List.singleton_append]
  simp only [Byte.parse]
  rw [parseFields_cons_eq, parseCodec_starString_eq, StarString_parse_build channel hch]
  simp only [VKey.toVal]
  rw [parseFields_cons_eq, parseCodec_ubint16_eq, UBInt16_parse_build cid hcid]
  simp only []
  rw [parseFields_cons_eq, parseCodec_starString_eq, StarString_parse_build name hnm]
  simp only [VKey.toVal]
  rw [parseFields_cons_eq, parseCodec_starString_eq, StarString_parse_build message hmsg]
  simp only [VKey.toVal]
  rw [parseFields]
  rfl

/-! ## The other schema round trips (for C1) -/

set_option maxRecDepth 8192 in
/-- `ProtocolRequest.build` emits the field encodings in declared order. -/
theorem protocolRequest_build (cb : Nat) (hcb : cb < 4294967296) :
    buildCodec ProtocolRequest (.record [("client_build", .int cb)])
      = .ok (toBytesBE 4 cb ++ []) := by
  rw [ProtocolRequest, buildCodec_composite_eq]
  refine buildFields_cons_ok _ _ _ _ _ _ ?_ ?_
  · rw [show (if dictHas [("client_build", Val.int (cb : Int))] "client_build" then
        dictGet [("client_build", Val.int (cb : Int))] "client_build" else Val.none)
          = Val.int (cb : Int) from rfl, buildCodec_ubint32_val, UBInt32_build_lt cb hcb]
  exact buildFields_nil _

set_option maxRecDepth 8192 in
/-- Parsing the built `ProtocolRequest` bytes restores the instance
field-for-field into the shared context. -/
theorem protocolRequest_parse (cb : Nat) (hcb : cb < 4294967296) :
    Struct.parse 0 ProtocolRequest (toBytesBE 4 cb ++ [])
      = .ok (.ref 0, [], [[("client_build", Val.int cb)]]) := by
  rw [Struct.parse, ProtocolRequest, parseCodec]
  rw [parseFields_cons_eq, parseCodec_ubint32_eq, UBInt32_parse_build cb hcb]
  simp only []
  rw [parseFields]
  rfl

set_option maxRecDepth 8192 in
/-- `ProtocolResponse.build` emits the field encodings in declared order. -/
theorem protocolResponse_build (sr : Nat) (hsr : sr < 256) :
    buildCodec ProtocolResponse (.record [("server_response", .int sr)])
      = .ok ([sr] ++ []) := by
  rw [ProtocolResponse, buildCodec_composite_eq]
  refine buildFields_cons_ok _ _ _ _ _ _ ?_ ?_
  · rw [show (if dictHas [("server_response", Val.int (sr : Int))] "server_response" then
        dictGet [("server_response", Val.int (sr : Int))] "server_response" else Val.none)
          = Val.int (sr : Int) from rfl, buildCodec_byte_val, Byte_build_lt sr hsr]
  exact buildFields_nil _

set_option maxRecDepth 8192 in
/-- Parsing the built `ProtocolResponse` bytes restores the instance
field-for-field into the shared context. -/
theorem protocolResponse_parse (sr : Nat) :
    Struct.parse 0 ProtocolResponse ([sr] ++ [])
      = .ok (.ref 0, [], [[("server_response", Val.int sr)]]) := by
  rw [Struct.parse, ProtocolResponse, parseCodec]
  rw [parseFields_cons_eq, parseCodec_byte_eq, List.singleton_append]
  simp only [Byte.parse]
  rw [parseFields]
  rfl

set_option maxRecDepth 8192 in
/-- `ConnectFailure.build` emits the field encodings in declared order. -/
theorem connectFailure_build (rsn : List Nat) (hrsn : rsn.all isScalar = true) :
    buildCodec ConnectFailure (.record [("reason", .str rsn)])
      = .ok (StarByteArray.build (utf8Encode rsn) ++ []) := by
  rw [ConnectFailure, buildCodec_composite_eq]
  refine buildFields_cons_ok _ _ _ _ _ _ ?_ ?_
  · rw [show (if dictHas [("reason", Val.str rsn)] "reason" then
        dictGet [("reason", Val.str rsn)] "reason" else Val.none)
          = Val.str rsn from rfl, buildCodec_starString_val, StarString.build,
        if_pos hrsn]
  exact buildFields_nil _

set_option maxRecDepth 8192 in
/-- Parsing the built `ConnectFailure` bytes restores the instance
field-for-field into the shared context. -/
theorem connectFailure_parse (rsn : List Nat) (hrsn : rsn.all isScalar = true) :
    Struct.parse 0 ConnectFailure (StarByteArray.build (utf8Encode rsn) ++ [])
      = .ok (.ref 0, [], [[("reason", Val.str rsn)]]) := by
  rw [Struct.parse, ConnectFailure, parseCodec]
  rw [parseFields_cons_eq, parseCodec_starString_eq, StarString_parse_build rsn hrsn]
  simp only [VKey.toVal]
  rw [parseFields]
  rfl

set_option maxRecDepth 8192 in
/-- `ClientDisconnectRequest.build` emits the field encodings in declared order. -/
theorem clientDisconnectRequest_build (rq : Nat) (hrq : rq < 256) :
    buildCodec ClientDisconnectRequest (.record [("request", .int rq)])
      = .ok ([rq] ++ []) := by
  rw [ClientDisconnectRequest, buildCodec_composite_eq]
  refine buildFields_cons_ok _ _ _ _ _ _ ?_ ?_
  · rw [show (if dictHas [("request", Val.int (rq : Int))] "request" then
        dictGet [("request", Val.int (rq : Int))] "request" else Val.none)
          = Val.int (rq : Int) from rfl, buildCodec_byte_val, Byte_build_lt rq hrq]
  exact buildFields_nil _

set_option maxRecDepth 8192 in
/-- Parsing the built `ClientDisconnectRequest` bytes restores the instance
field-for-field into the shared context. -/
theorem clientDisconnectRequest_parse (rq : Nat) :
    Struct.parse 0 ClientDisconnectRequest ([rq] ++ [])
      = .ok (.ref 0, [], [[("request", Val.int rq)]]) := by
  rw [Struct.parse, ClientDisconnectRequest, parseCodec]
  rw [parseFields_cons_eq, parseCodec_byte_eq, List.singleton_append]
  simp only [Byte.parse]
  rw [parseFields]
  rfl

set_option maxRecDepth 8192 in
/-- `ServerDisconnect.build` emits the field encodings in declared order. -/
theorem serverDisconnect_build (rsn : List Nat) (hrsn : rsn.all isScalar = true) :
    buildCodec ServerDisconnect (.record [("reason", .str rsn)])
      = .ok (StarByteArray.build (utf8Encode rsn) ++ []) := by
  rw [ServerDisconnect, buildCodec_composite_eq]
  refine buildFields_cons_ok _ _ _ _ _ _ ?_ ?_
  · rw [show (if dictHas [("reason", Val.str rsn)] "reason" then
        dictGet [("reason", Val.str rsn)] "reason" else Val.none)
          = Val.str rsn from rfl, buildCodec_starString_val, StarString.build,
        if_pos hrsn]
  exact buildFields_nil _

set_option maxRecDepth 8192 in
/-- Parsing the built `ServerDisconnect` bytes restores the instance
field-for-field into the shared context. -/
theorem serverDisconnect_parse (rsn : List Nat) (hrsn : rsn.all isScalar = true) :
    Struct.parse 0 ServerDisconnect (StarByteArray.build (utf8Encode rsn) ++ [])
      = .ok (.ref 0, [], [[("reason", Val.str rsn)]]) := by
  rw [Struct.parse, ServerDisconnect, parseCodec]
  rw [parseFields_cons_eq, parseCodec_starString_eq, StarString_parse_build rsn hrsn]
  simp only [VKey.toVal]
  rw [parseFields]
  rfl

set_option maxRecDepth 8192 in
/-- `PlayerWarp.build` emits the field encodings in declared order. -/
theorem playerWarp_build (wt : Nat) (ee : List Nat) (hwt : wt < 256) (hee : ee.all isScalar = true) :
    buildCodec PlayerWarp (.record [("warp_type", .int wt), ("everything_else", .str ee)])
      = .ok ([wt] ++ (StarByteArray.build (utf8Encode ee) ++ [])) := by
  rw [PlayerWarp, buildCodec_composite_eq]
  refine buildFields_cons_ok _ _ _ _ _ _ ?_ ?_
  · rw [show (if dictHas [("warp_type", Val.int (wt : Int)), ("everything_else", Val.str ee)] "warp_type" then
        dictGet [("warp_type", Val.int (wt : Int)), ("everything_else", Val.str ee)] "warp_type" else Val.none)
          = Val.int (wt : Int) from rfl, buildCodec_byte_val, Byte_build_lt wt hwt]
  refine buildFields_cons_ok _ _ _ _ _ _ ?_ ?_
  · rw [show (if dictHas [("warp_type", Val.int (wt : Int)), ("everything_else", Val.str ee)] "everything_else" then
        dictGet [("warp_type", Val.int (wt : Int)), ("everything_else", Val.str ee)] "everything_else" else Val.none)
          = Val.str ee from rfl, buildCodec_starString_val, StarString.build,
        if_pos hee]
  exact buildFields_nil _

set_option maxRecDepth 8192 in
/-- Parsing the built `PlayerWarp` bytes restores the instance
field-for-field into the shared context. -/
theorem playerWarp_parse (wt : Nat) (ee : List Nat) (hee : ee.all isScalar = true) :
    Struct.parse 0 PlayerWarp ([wt] ++ (StarByteArray.build (utf8Encode ee) ++ []))
      = .ok (.ref 0, [], [[("warp_type", Val.int wt), ("everything_else", Val.str ee)]]) := by
  rw [Struct.parse, PlayerWarp, parseCodec]
  rw [parseFields_cons_eq, parseCodec_byte_eq, List.singleton_append]
  simp only [Byte.parse]
  rw [parseFields_cons_eq, parseCodec_starString_eq, StarString_parse_build ee hee]
  simp only [VKey.toVal]
  rw [parseFields]
  rfl

set_option maxRecDepth 8192 in
/-- `ChatSent.build` emits the field encodings in declared order. -/
theorem chatSent_build (sm : Nat) (msg : List Nat) (hmsg : msg.all isScalar = true) (hsm : sm < 256) :
    buildCodec ChatSent (.record [("message", .str msg), ("send_mode", .int sm)])
      = .ok (StarByteArray.build (utf8Encode msg) ++ ([sm] ++ [])) := by
  rw [ChatSent, buildCodec_composite_eq]
  refine buildFields_cons_ok _ _ _ _ _ _ ?_ ?_
  · rw [show (if dictHas [("message", Val.str msg), ("send_mode", Val.int (sm : Int))] "message" then
        dictGet [("message", Val.str msg), ("send_mode", Val.int (sm : Int))] "message" else Val.none)
          = Val.str msg from rfl, buildCodec_starString_val, StarString.build,
        if_pos hmsg]
  refine buildFields_cons_ok _ _ _ _ _ _ ?_ ?_
  · rw [show (if dictHas [("message", Val.str msg), ("send_mode", Val.int (sm : Int))] "send_mode" then
        dictGet [("message", Val.str msg), ("send_mode", Val.int (sm : Int))] "send_mode" else Val.none)
          = Val.int (sm : Int) from rfl, buildCodec_byte_val, Byte_build_lt sm hsm]
  exact buildFields_nil _

set_option maxRecDepth 8192 in
/-- Parsing the built `ChatSent` bytes restores the instance
field-for-field into the shared context. -/
theorem chatSent_parse (sm : Nat) (msg : List Nat) (hmsg : msg.all isScalar = true) :
    Struct.parse 0 ChatSent (StarByteArray.build (utf8Encode msg) ++ ([sm] ++ []))
      = .ok (.ref 0, [], [[("message", Val.str msg), ("send_mode", Val.int sm)]]) := by
  rw [Struct.parse, ChatSent, parseCodec]
  rw [parseFields_cons_eq, parseCodec_starString_eq, StarString_parse_build msg hmsg]
  simp only [VKey.toVal]
  rw [parseFields_cons_eq, parseCodec_byte_eq, List.singleton_append]
  simp only [Byte.parse]
  rw [parseFields]
  rfl

set_option maxRecDepth 8192 in
/-- `WorldStop.build` emits the field encodings in declared order. -/
theorem worldStop_build (rsn : List Nat) (hrsn : rsn.all isScalar = true) :
    buildCodec WorldStop (.record [("reason", .str rsn)])
      = .ok (StarByteArray.build (utf8Encode rsn) ++ []) := by
  rw [WorldStop, buildCodec_composite_eq]
  refine buildFields_cons_ok _ _ _ _ _ _ ?_ ?_
  · rw [show (if dictHas [("reason", Val.str rsn)] "reason" then
        dictGet [("reason", Val.str rsn)] "reason" else Val.none)
          = Val.str rsn from rfl, buildCodec_starString_val, StarString.build,
        if_pos hrsn]
  exact buildFields_nil _

set_option maxRecDepth 8192 in
/-- Parsing the built `WorldStop` bytes restores the instance
field-for-field into the shared context. -/
theorem worldStop_parse (rsn : List Nat) (hrsn : rsn.all isScalar = true) :
    Struct.parse 0 WorldStop (StarByteArray.build (utf8Encode rsn) ++ [])
      = .ok (.ref 0, [], [[("reason", Val.str rsn)]]) := by
  rw [Struct.parse, WorldStop, parseCodec]
  rw [parseFields_cons_eq, parseCodec_starString_eq, StarString_parse_build rsn hrsn]
  simp only [VKey.toVal]
  rw [parseFields]
  rfl

set_option maxRecDepth 8192 in
/-- `GiveItem.build` emits the field encodings in declared order. -/
theorem giveItem_build (cnt vt : Nat) (nm dsc : List Nat) (hnm : nm.all isScalar = true) (hvt : vt < 256) (hdsc : dsc.all isScalar = true) :
    buildCodec GiveItem (.record [("name", .str nm), ("count", .int cnt), ("variant_type", .int vt), ("description", .str dsc)])
      = .ok (StarByteArray.build (utf8Encode nm) ++ (VLQ.build (cnt : Int) ++ ([vt] ++ (StarByteArray.build (utf8Encode dsc) ++ [])))) := by
  rw [GiveItem, buildCodec_composite_eq]
  refine buildFields_cons_ok _ _ _ _ _ _ ?_ ?_
  · rw [show (if dictHas [("name", Val.str nm), ("count", Val.int (cnt : Int)), ("variant_type", Val.int (vt : Int)), ("description", Val.str dsc)] "name" then
        dictGet [("name", Val.str nm), ("count", Val.int (cnt : Int)), ("variant_type", Val.int (vt : Int)), ("description", Val.str dsc)] "name" else Val.none)
          = Val.str nm from rfl, buildCodec_starString_val, StarString.build,
        if_pos hnm]
  refine buildFields_cons_ok _ _ _ _ _ _ ?_ ?_
  · rw [show (if dictHas [("name", Val.str nm), ("count", Val.int (cnt : Int)), ("variant_type", Val.int (vt : Int)), ("description", Val.str dsc)] "count" then
        dictGet [("name", Val.str nm), ("count", Val.int (cnt : Int)), ("variant_type", Val.int (vt : Int)), ("description", Val.str dsc)] "count" else Val.none)
          = Val.int (cnt : Int) from rfl, buildCodec_vlq_val]
  refine buildFields_cons_ok _ _ _ _ _ _ ?_ ?_
  · rw [show (if dictHas [("name", Val.str nm), ("count", Val.int (cnt : Int)), ("variant_type", Val.int (vt : Int)), ("description", Val.str dsc)] "variant_type" then
        dictGet [("name", Val.str nm), ("count", Val.int (cnt : Int)), ("variant_type", Val.int (vt : Int)), ("description", Val.str dsc)] "variant_type" else Val.none)
          = Val.int (vt : Int) from rfl, buildCodec_byte_val, Byte_build_lt vt hvt]
  refine buildFields_cons_ok _ _ _ _ _ _ ?_ ?_
  · rw [show (if dictHas [("name", Val.str nm), ("count", Val.int (cnt : Int)), ("variant_type", Val.int (vt : Int)), ("description", Val.str dsc)] "description" then
        dictGet [("name", Val.str nm), ("count", Val.int (cnt : Int)), ("variant_type", Val.int (vt : Int)), ("description", Val.str dsc)] "description" else Val.none)
          = Val.str dsc from rfl, buildCodec_starString_val, StarString.build,
        if_pos hdsc]
  exact buildFields_nil _

set_option maxRecDepth 8192 in
/-- Parsing the built `GiveItem` bytes restores the instance
field-for-field into the shared context. -/
theorem giveItem_parse (cnt vt : Nat) (nm dsc : List Nat) (hnm : nm.all isScalar = true) (hdsc : dsc.all isScalar = true) :
    Struct.parse 0 GiveItem (StarByteArray.build (utf8Encode nm) ++ (VLQ.build (cnt : Int) ++ ([vt] ++ (StarByteArray.build (utf8Encode dsc) ++ []))))
      = .ok (.ref 0, [], [[("name", Val.str nm), ("count", Val.int cnt), ("variant_type", Val.int vt), ("description", Val.str dsc)]]) := by
  rw [Struct.parse, GiveItem, parseCodec]
  rw [parseFields_cons_eq, parseCodec_starString_eq, StarString_parse_build nm hnm]
  simp only [VKey.toVal]
  rw [parseFields_cons_eq, parseCodec_vlq_eq, VLQ_parse_build cnt]
  simp only []
  rw [parseFields_cons_eq, parseCodec_byte_eq, List.singleton_append]
  simp only [Byte.parse]
  rw [parseFields_cons_eq, parseCodec_starString_eq, StarString_parse_build dsc hdsc]
  simp only [VKey.toVal]
  rw [parseFields]
  rfl


/-- C1 counterexample: the claim fails on several codecs, each shown at a
concrete input.  `Flag` produces `false` by decoding (end-of-stream), but
decoding its encoding of `false` — the byte `0x00` — yields `true`.
`BDouble` decode produces the one-element tuple `struct.unpack` returns
(the source omits the `[0]`), and encoding that tuple raises.  `UUID`
decode hexlifies 16 bytes while encode emits a presence flag followed by
the raw value, so decode∘encode maps the decodable 32-hex-character value
to a different value.  `String` decode can produce raw (undecodable) bytes,
whose encode raises.  `Variant`, `StringSet` and `WorldChunks` produce
values by decoding but define no `_build`: their encode is the base
`Struct._build`, which raises `NotImplementedError`. -/
theorem claim_C1_counterexample :
    (Flag.parse [] = (false, []) ∧
      Flag.build false = [0x00] ∧
      Flag.parse (Flag.build false) = (true, [])) ∧
    (BDouble.parse [63, 240, 0, 0, 0, 0, 0, 0]
        = .ok (.tuple [.float64 0x3FF0000000000000], []) ∧
      buildCodec .bdouble (.tuple [.float64 0x3FF0000000000000])
        = .error .typeErr) ∧
    (UUID.parse (List.replicate 16 0) = (List.replicate 32 48, []) ∧
      UUID.build (List.replicate 32 48) = 1 :: List.replicate 32 48 ∧
      UUID.parse (1 :: List.replicate 32 48)
        = ([48, 49] ++ (List.replicate 15 [51, 48]).flatten, List.replicate 17 48) ∧
      ((UUID.parse (UUID.build (UUID.parse (List.replicate 16 0)).1)).1
        == (UUID.parse (List.replicate 16 0)).1) = false) ∧
    (StarString.parse [1, 0xFF] = (.b [0xFF], []) ∧
      buildCodec .starString (.bytes [0xFF]) = .error .typeErr) ∧
    buildCodec .variant .none = .error .notImpl ∧
    (StringSet.parse [1, 1, 0xFF] = ([.bytes [0xFF]], []) ∧
      StringSet.build (.vlist [.bytes [0xFF]]) = .error .notImpl) ∧
    (WorldChunks.parse [0]
        = (.record [("length", .int 0), ("content", .vlist [])], []) ∧
      WorldChunks.build (.record [("length", .int 0), ("content", .vlist [])])
        = .error .notImpl) :=
  ⟨⟨rfl, rfl, rfl⟩, ⟨rfl, rfl⟩, ⟨rfl, rfl, rfl, rfl⟩, ⟨rfl, rfl⟩, rfl,
    ⟨rfl, rfl⟩, ⟨rfl, rfl⟩⟩

/-- C1 amended: `decode(encode(v)) = v` holds for the integer, float-bit,
byte-array and text codecs — VLQ (every `n : ℕ`), SignedVLQ (every integer),
Byte, UBInt16/SBInt16, UBInt32/SBInt32 (each on its range), BFloat32 (every
32-bit pattern), ByteArray, String on scalar text — and for `Flag` on
`true`; and build followed by parse restores the instance field-for-field
for every catalog schema composed of these codecs: ProtocolRequest,
ProtocolResponse, ConnectFailure, ClientDisconnectRequest, ServerDisconnect,
ChatReceived, PlayerWarp, ChatSent, WorldStop and GiveItem.  The exceptions,
each one exhibited by the counterexample, are: `Flag` on `false`; `BDouble`
(decode yields the 1-tuple `struct.unpack` returns, which encode rejects);
`UUID` (encode is a presence flag plus the raw value, not the inverse of the
hexlifying decode); `String` on undecodable raw bytes (which encode
rejects); and the decode-only `Variant`, `StringSet` and `WorldChunks`,
whose encode is the base `Struct._build` raising `NotImplementedError` —
with them the schemas that contain them (ClientConnect, ConnectSuccess,
WorldStart). -/
theorem claim_C1_amended :
    (∀ (n : Nat) (rest : List Nat), VLQ.parse (VLQ.build (n : Int) ++ rest) = (n, rest)) ∧
    (∀ (i : Int) (rest : List Nat),
      SignedVLQ.parse (SignedVLQ.build i ++ rest) = (i, rest)) ∧
    (∀ n : Nat, n < 256 → ∀ rest : List Nat,
      Byte.build (n : Int) = .ok [n] ∧ Byte.parse (n :: rest) = (n, rest)) ∧
    (∀ n : Nat, n < 65536 → ∀ rest : List Nat,
      UBInt16.build (n : Int) = .ok (toBytesBE 2 n) ∧
      UBInt16.parse (toBytesBE 2 n ++ rest) = .ok (n, rest)) ∧
    (∀ i : Int, -32768 ≤ i → i < 32768 → ∀ rest : List Nat, ∃ bs : List Nat,
      SBInt16.build i = .ok bs ∧ SBInt16.parse (bs ++ rest) = .ok (i, rest)) ∧
    (∀ n : Nat, n < 4294967296 → ∀ rest : List Nat,
      UBInt32.build (n : Int) = .ok (toBytesBE 4 n) ∧
      UBInt32.parse (toBytesBE 4 n ++ rest) = .ok (n, rest)) ∧
    (∀ i : Int, -2147483648 ≤ i → i < 2147483648 → ∀ rest : List Nat, ∃ bs : List Nat,
      SBInt32.build i = .ok bs ∧ SBInt32.parse (bs ++ rest) = .ok (i, rest)) ∧
    (∀ bits : Nat, bits < 4294967296 → ∀ rest : List Nat,
      buildCodec .bfloat32 (.float32 bits) = .ok (toBytesBE 4 bits) ∧
      BFloat32.parse (toBytesBE 4 bits ++ rest) = .ok (bits, rest)) ∧
    (∀ bs rest : List Nat, StarByteArray.parse (StarByteArray.build bs ++ rest)
      = (bs, rest)) ∧
    (∀ cps : List Nat, cps.all isScalar = true → ∀ rest : List Nat, ∃ bs : List Nat,
      StarString.build cps = .ok bs ∧ StarString.parse (bs ++ rest) = (.s cps, rest)) ∧
    Flag.parse (Flag.build true) = (true, []) ∧
    (∀ (cb : Nat),
      cb < 4294967296 →
      buildCodec ProtocolRequest (.record [("client_build", .int cb)])
          = .ok (toBytesBE 4 cb ++ []) ∧
      Struct.parse 0 ProtocolRequest (toBytesBE 4 cb ++ [])
          = .ok (.ref 0, [], [[("client_build", Val.int cb)]])) ∧
    (∀ (sr : Nat),
      sr < 256 →
      buildCodec ProtocolResponse (.record [("server_response", .int sr)])
          = .ok ([sr] ++ []) ∧
      Struct.parse 0 ProtocolResponse ([sr] ++ [])
          = .ok (.ref 0, [], [[("server_response", Val.int sr)]])) ∧
    (∀ (rsn : List Nat),
      rsn.all isScalar = true →
      buildCodec ConnectFailure (.record [("reason", .str rsn)])
          = .ok (StarByteArray.build (utf8Encode rsn) ++ []) ∧
      Struct.parse 0 ConnectFailure (StarByteArray.build (utf8Encode rsn) ++ [])
          = .ok (.ref 0, [], [[("reason", Val.str rsn)]])) ∧
    (∀ (rq : Nat),
      rq < 256 →
      buildCodec ClientDisconnectRequest (.record [("request", .int rq)])
          = .ok ([rq] ++ []) ∧
      Struct.parse 0 ClientDisconnectRequest ([rq] ++ [])
          = .ok (.ref 0, [], [[("request", Val.int rq)]])) ∧
    (∀ (rsn : List Nat),
      rsn.all isScalar = true →
      buildCodec ServerDisconnect (.record [("reason", .str rsn)])
          = .ok (StarByteArray.build (utf8Encode rsn) ++ []) ∧
      Struct.parse 0 ServerDisconnect (StarByteArray.build (utf8Encode rsn) ++ [])
          = .ok (.ref 0, [], [[("reason", Val.str rsn)]])) ∧
    (∀ (mode cid : Nat) (channel name message : List Nat),
      mode < 256 → cid < 65536 →
      channel.all isScalar = true → name.all isScalar = true →
      message.all isScalar = true →
      buildCodec ChatReceived (.record
          [("mode", .int mode), ("channel", .str channel), ("client_id", .int cid),
           ("name", .str name), ("message", .str message)])
        = .ok ([mode] ++ (StarByteArray.build (utf8Encode channel)
            ++ (toBytesBE 2 cid ++ (StarByteArray.build (utf8Encode name)
            ++ (StarByteArray.build (utf8Encode message) ++ []))))) ∧
      Struct.parse 0 ChatReceived
          ([mode] ++ (StarByteArray.build (utf8Encode channel)
            ++ (toBytesBE 2 cid ++ (StarByteArray.build (utf8Encode name)
            ++ (StarByteArray.build (utf8Encode message) ++ [])))))
        = .ok (.ref 0, [],
            [[("mode", Val.int mode), ("channel", Val.str channel),
              ("client_id", Val.int cid), ("name", Val.str name),
              ("message", Val.str message)]])) ∧
    (∀ (wt : Nat) (ee : List Nat),
      wt < 256 → ee.all isScalar = true →
      buildCodec PlayerWarp (.record [("warp_type", .int wt), ("everything_else", .str ee)])
          = .ok ([wt] ++ (StarByteArray.build (utf8Encode ee) ++ [])) ∧
      Struct.parse 0 PlayerWarp ([wt] ++ (StarByteArray.build (utf8Encode ee) ++ []))
          = .ok (.ref 0, [], [[("warp_type", Val.int wt), ("everything_else", Val.str ee)]])) ∧
    (∀ (sm : Nat) (msg : List Nat),
      msg.all isScalar = true → sm < 256 →
      buildCodec ChatSent (.record [("message", .str msg), ("send_mode", .int sm)])
          = .ok (StarByteArray.build (utf8Encode msg) ++ ([sm] ++ [])) ∧
      Struct.parse 0 ChatSent (StarByteArray.build (utf8Encode msg) ++ ([sm] ++ []))
          = .ok (.ref 0, [], [[("message", Val.str msg), ("send_mode", Val.int sm)]])) ∧
    (∀ (rsn : List Nat),
      rsn.all isScalar = true →
      buildCodec WorldStop (.record [("reason", .str rsn)])
          = .ok (StarByteArray.build (utf8Encode rsn) ++ []) ∧
      Struct.parse 0 WorldStop (StarByteArray.build (utf8Encode rsn) ++ [])
          = .ok (.ref 0, [], [[("reason", Val.str rsn)]])) ∧
    (∀ (cnt vt : Nat) (nm dsc : List Nat),
      nm.all isScalar = true → vt < 256 → dsc.all isScalar = true →
      buildCodec GiveItem (.record [("name", .str nm), ("count", .int cnt), ("variant_type", .int vt), ("description", .str dsc)])
          = .ok (StarByteArray.build (utf8Encode nm) ++ (VLQ.build (cnt : Int) ++ ([vt] ++ (StarByteArray.build (utf8Encode dsc) ++ [])))) ∧
      Struct.parse 0 GiveItem (StarByteArray.build (utf8Encode nm) ++ (VLQ.build (cnt : Int) ++ ([vt] ++ (StarByteArray.build (utf8Encode dsc) ++ []))))
          = .ok (.ref 0, [], [[("name", Val.str nm), ("count", Val.int cnt), ("variant_type", Val.int vt), ("description", Val.str dsc)]])) := by
  refine ⟨VLQ_parse_build, SignedVLQ_parse_build, ?_, ?_, ?_, ?_, ?_, ?_, StarByteArray_parse_build, ?_, rfl, ?_, ?_, ?_, ?_, ?_, ?_, ?_, ?_, ?_, ?_⟩
  · intro n hn rest
    exact ⟨Byte_build_lt n hn, rfl⟩
  · intro n hn rest
    exact ⟨UBInt16_build_lt n hn, UBInt16_parse_build n hn rest⟩
  · intro i h1 h2 rest
    refine ⟨toBytesBE 2 (i % 65536).toNat, ?_, SBInt16_parse_build i h1 h2 rest⟩
    rw [SBInt16.build, if_pos ⟨h1, h2⟩]
  · intro n hn rest
    exact ⟨UBInt32_build_lt n hn, UBInt32_parse_build n hn rest⟩
  · intro i h1 h2 rest
    refine ⟨toBytesBE 4 (i % 4294967296).toNat, ?_, SBInt32_parse_build i h1 h2 rest⟩
    rw [SBInt32.build, if_pos ⟨h1, h2⟩]
  · intro bits hb rest
    exact ⟨buildCodec_bfloat32_val bits, BFloat32_parse_build bits hb rest⟩
  · intro cps hall rest
    refine ⟨StarByteArray.build (utf8Encode cps), ?_, StarString_parse_build cps hall rest⟩
    rw [StarString.build, if_pos hall]
  · intro cb hcb
    exact ⟨protocolRequest_build cb hcb, protocolRequest_parse cb hcb⟩
  · intro sr hsr
    exact ⟨protocolResponse_build sr hsr, protocolResponse_parse sr⟩
  · intro rsn hrsn
    exact ⟨connectFailure_build rsn hrsn, connectFailure_parse rsn hrsn⟩
  · intro rq hrq
    exact ⟨clientDisconnectRequest_build rq hrq, clientDisconnectRequest_parse rq⟩
  · intro rsn hrsn
    exact ⟨serverDisconnect_build rsn hrsn, serverDisconnect_parse rsn hrsn⟩
  · intro mode cid channel name message hmode hcid hch hnm hmsg
    exact ⟨chat_build mode cid channel name message hmode hcid hch hnm hmsg,
      chat_parse mode cid channel name message hcid hch hnm hmsg⟩
  · intro wt ee hwt hee
    exact ⟨playerWarp_build wt ee hwt hee, playerWarp_parse wt ee hee⟩
  · intro sm msg hmsg hsm
    exact ⟨chatSent_build sm msg hmsg hsm, chatSent_parse sm msg hmsg⟩
  · intro rsn hrsn
    exact ⟨worldStop_build rsn hrsn, worldStop_parse rsn hrsn⟩
  · intro cnt vt nm dsc hnm hvt hdsc
    exact ⟨giveItem_build cnt vt nm dsc hnm hvt hdsc, giveItem_parse cnt vt nm dsc hnm hdsc⟩

/-- Witness for the amended C1 at concrete inputs: every
hypothesis-bearing conjunct applied at a concrete value. -/
theorem claim_C1_witness :
    (Byte.build ((7 : Nat) : Int) = .ok [7] ∧ Byte.parse (7 :: [9]) = (7, [9])) ∧
    (UBInt16.build ((300 : Nat) : Int) = .ok (toBytesBE 2 300) ∧
      UBInt16.parse (toBytesBE 2 300 ++ []) = .ok (300, [])) ∧
    (∃ bs : List Nat, SBInt16.build (-2) = .ok bs ∧
      SBInt16.parse (bs ++ []) = .ok (-2, [])) ∧
    (UBInt32.build ((70000 : Nat) : Int) = .ok (toBytesBE 4 70000) ∧
      UBInt32.parse (toBytesBE 4 70000 ++ []) = .ok (70000, [])) ∧
    (∃ bs : List Nat, SBInt32.build (-7) = .ok bs ∧
      SBInt32.parse (bs ++ []) = .ok (-7, [])) ∧
    (buildCodec .bfloat32 (.float32 1065353216) = .ok (toBytesBE 4 1065353216) ∧
      BFloat32.parse (toBytesBE 4 1065353216 ++ []) = .ok (1065353216, [])) ∧
    (∃ bs : List Nat, StarString.build [0x6B] = .ok bs ∧
      StarString.parse (bs ++ []) = (.s [0x6B], [])) ∧
    (buildCodec ProtocolRequest (.record [("client_build", .int 1)])
        = .ok (toBytesBE 4 1 ++ []) ∧
      Struct.parse 0 ProtocolRequest (toBytesBE 4 1 ++ [])
        = .ok (.ref 0, [], [[("client_build", Val.int 1)]])) ∧
    (buildCodec ProtocolResponse (.record [("server_response", .int 2)])
        = .ok ([2] ++ []) ∧
      Struct.parse 0 ProtocolResponse ([2] ++ [])
        = .ok (.ref 0, [], [[("server_response", Val.int 2)]])) ∧
    (buildCodec ConnectFailure (.record [("reason", .str [97])])
        = .ok (StarByteArray.build (utf8Encode [97]) ++ []) ∧
      Struct.parse 0 ConnectFailure (StarByteArray.build (utf8Encode [97]) ++ [])
        = .ok (.ref 0, [], [[("reason", Val.str [97])]])) ∧
    (buildCodec ClientDisconnectRequest (.record [("request", .int 3)])
        = .ok ([3] ++ []) ∧
      Struct.parse 0 ClientDisconnectRequest ([3] ++ [])
        = .ok (.ref 0, [], [[("request", Val.int 3)]])) ∧
    (buildCodec ServerDisconnect (.record [("reason", .str [98])])
        = .ok (StarByteArray.build (utf8Encode [98]) ++ []) ∧
      Struct.parse 0 ServerDisconnect (StarByteArray.build (utf8Encode [98]) ++ [])
        = .ok (.ref 0, [], [[("reason", Val.str [98])]])) ∧
    (buildCodec ChatReceived (.record
        [("mode", .int 5), ("channel", .str [99, 104]), ("client_id", .int 258),
         ("name", .str [110]), ("message", .str [109])])
      = .ok ([5] ++ (StarByteArray.build (utf8Encode [99, 104])
          ++ (toBytesBE 2 258 ++ (StarByteArray.build (utf8Encode [110])
          ++ (StarByteArray.build (utf8Encode [109]) ++ []))))) ∧
      Struct.parse 0 ChatReceived
          ([5] ++ (StarByteArray.build (utf8Encode [99, 104])
            ++ (toBytesBE 2 258 ++ (StarByteArray.build (utf8Encode [110])
            ++ (StarByteArray.build (utf8Encode [109]) ++ [])))))
        = .ok (.ref 0, [],
            [[("mode", Val.int 5), ("channel", Val.str [99, 104]),
              ("client_id", Val.int 258), ("name", Val.str [110]),
              ("message", Val.str [109])]])) ∧
    (buildCodec PlayerWarp (.record [("warp_type", .int 4), ("everything_else", .str [119])])
        = .ok ([4] ++ (StarByteArray.build (utf8Encode [119]) ++ [])) ∧
      Struct.parse 0 PlayerWarp ([4] ++ (StarByteArray.build (utf8Encode [119]) ++ []))
        = .ok (.ref 0, [], [[("warp_type", Val.int 4), ("everything_else", Val.str [119])]])) ∧
    (buildCodec ChatSent (.record [("message", .str [104, 105]), ("send_mode", .int 1)])
        = .ok (StarByteArray.build (utf8Encode [104, 105]) ++ ([1] ++ [])) ∧
      Struct.parse 0 ChatSent (StarByteArray.build (utf8Encode [104, 105]) ++ ([1] ++ []))
        = .ok (.ref 0, [], [[("message", Val.str [104, 105]), ("send_mode", Val.int 1)]])) ∧
    (buildCodec WorldStop (.record [("reason", .str [115])])
        = .ok (StarByteArray.build (utf8Encode [115]) ++ []) ∧
      Struct.parse 0 WorldStop (StarByteArray.build (utf8Encode [115]) ++ [])
        = .ok (.ref 0, [], [[("reason", Val.str [115])]])) ∧
    (buildCodec GiveItem (.record [("name", .str [103]), ("count", .int 300), ("variant_type", .int 6), ("description", .str [100])])
        = .ok (StarByteArray.build (utf8Encode [103]) ++ (VLQ.build (300 : Int) ++ ([6] ++ (StarByteArray.build (utf8Encode [100]) ++ [])))) ∧
      Struct.parse 0 GiveItem (StarByteArray.build (utf8Encode [103]) ++ (VLQ.build (300 : Int) ++ ([6] ++ (StarByteArray.build (utf8Encode [100]) ++ []))))
        = .ok (.ref 0, [], [[("name", Val.str [103]), ("count", Val.int 300), ("variant_type", Val.int 6), ("description", Val.str [100])]])) :=
  ⟨claim_C1_amended.2.2.1 7 (by norm_num) [9],
    claim_C1_amended.2.2.2.1 300 (by norm_num) [],
    claim_C1_amended.2.2.2.2.1 (-2) (by norm_num) (by norm_num) [],
    claim_C1_amended.2.2.2.2.2.1 70000 (by norm_num) [],
    claim_C1_amended.2.2.2.2.2.2.1 (-7) (by norm_num) (by norm_num) [],
    claim_C1_amended.2.2.2.2.2.2.2.1 1065353216 (by norm_num) [],
    claim_C1_amended.2.2.2.2.2.2.2.2.2.1 [0x6B] rfl [],
    claim_C1_amended.2.2.2.2.2.2.2.2.2.2.2.1 1 (by norm_num),
    claim_C1_amended.2.2.2.2.2.2.2.2.2.2.2.2.1 2 (by norm_num),
    claim_C1_amended.2.2.2.2.2.2.2.2.2.2.2.2.2.1 [97] rfl,
    claim_C1_amended.2.2.2.2.2.2.2.2.2.2.2.2.2.2.1 3 (by norm_num),
    claim_C1_amended.2.2.2.2.2.2.2.2.2.2.2.2.2.2.2.1 [98] rfl,
    claim_C1_amended.2.2.2.2.2.2.2.2.2.2.2.2.2.2.2.2.1 5 258 [99, 104] [110] [109]
      (by norm_num) (by norm_num) rfl rfl rfl,
    claim_C1_amended.2.2.2.2.2.2.2.2.2.2.2.2.2.2.2.2.2.1 4 [119] (by norm_num) rfl,
    claim_C1_amended.2.2.2.2.2.2.2.2.2.2.2.2.2.2.2.2.2.2.1 1 [104, 105] rfl (by norm_num),
    claim_C1_amended.2.2.2.2.2.2.2.2.2.2.2.2.2.2.2.2.2.2.2.1 [115] rfl,
    claim_C1_amended.2.2.2.2.2.2.2.2.2.2.2.2.2.2.2.2.2.2.2.2 300 6 [103] [100] rfl (by norm_num) rfl⟩
